import Mathlib

/-!
Verification of the RPC dispatch and request-queueing core of nfs-ganesha
(src/MainNFSD/nfs_rpc_dispatcher_thread.c), as a shallow embedding.

The request multi-queue (four producer/consumer queue pairs), the waitlist
handoff, the socket allocation/bind state machines and the request refcount
lifecycle are translated from the C source.  `glist` primitives
(glist_add_tail, glist_del, glist_first_entry, glist_splice_tail) are the
repository's intrusive doubly-linked list, not present under src/; they are
modelled as Lean lists (append, removal, head, append-move), which is the
reading the specification gives them.  uint32 counters are modelled as
unbounded naturals (no trace considered here approaches 2^32 operations).
-/

namespace NfsDispatch

/-- request_type: the kind tag of a request_data_t.  `P9_REQUEST` stands for
the source's `_9P_REQUEST` (built with _USE_9P); `UNKNOWN_REQUEST` is the
remaining enum value, hitting the `default:` arm of nfs_rpc_enqueue_req. -/
inductive RType
  | NFS_REQUEST
  | NFS_CALL
  | P9_REQUEST
  | UNKNOWN_REQUEST
deriving DecidableEq, Repr

/-- The two classifier inputs read from `reqdata->r_u.req.lookahead`:
`mountFlag` is the test `lookahead.flags & NFS_LOOKAHEAD_MOUNT`, and
`highLatency` is the macro `NFS_LOOKAHEAD_HIGH_LATENCY(lookahead)` (both the
flag constant and the macro live in a header outside this file; the
dispatcher only consumes these two boolean tests). -/
structure Lookahead where
  mountFlag : Bool
  highLatency : Bool
deriving DecidableEq, Repr

/-- request_data_t, restricted to the fields the dispatcher core reads or
writes: the kind tag, the decoder's lookahead, the enqueue timestamp
(`time_queued`, set by `now()`), the reference count `r_d_refs`, and the
resource flags consulted/updated by free_nfs_request (`rq_auth` present,
auth released, XDR stream destroyed, pool_free performed).  `rid` is an
identity used to state conservation properties. -/
structure RequestData where
  rid : Nat
  rtype : RType
  lookahead : Lookahead
  timeQueued : Option Nat := none
  r_d_refs : Nat := 1
  hasAuth : Bool := false
  authReleased : Bool := false
  xdrDestroyed : Bool := false
  freed : Bool := false
deriving DecidableEq, Repr

/-- One sub-queue (struct req_q): the glist of linked requests plus the
`size` counter the code maintains alongside it. -/
structure ReqQ where
  q : List RequestData
  size : Nat
deriving DecidableEq, Repr

/-- struct req_q_pair: producer and consumer sub-queues. -/
structure QPair where
  producer : ReqQ
  consumer : ReqQ
deriving DecidableEq, Repr

/-- The four queue indices REQ_Q_MOUNT, REQ_Q_CALL, REQ_Q_LOW_LATENCY,
REQ_Q_HIGH_LATENCY. -/
inductive QIdx
  | REQ_Q_MOUNT
  | REQ_Q_CALL
  | REQ_Q_LOW_LATENCY
  | REQ_Q_HIGH_LATENCY
deriving DecidableEq, Repr

/-- wait_q_entry_t: a worker's wait entry.  `waitSync` and `syncDone` are
the Wqe_LFlag_WaitSync and Wqe_LFlag_SyncDone bits of `flags`; `waiters` is
the per-entry waiter count; `wid` identifies the entry (its address in C). -/
structure WaitQEntry where
  wid : Nat
  waiters : Nat
  waitSync : Bool
  syncDone : Bool
deriving DecidableEq, Repr

/-- The dispatcher's shared state: the four queue pairs of
nfs_req_st.reqs.nfs_request_q, the wait list with its global waiter count,
and the file-static counters enqueued_reqs / dequeued_reqs. -/
structure NfsReqSt where
  qMount : QPair
  qCall : QPair
  qLow : QPair
  qHigh : QPair
  waitList : List WaitQEntry
  waiters : Nat
  enqueuedReqs : Nat
  dequeuedReqs : Nat
deriving DecidableEq, Repr

def NfsReqSt.qpair (st : NfsReqSt) : QIdx → QPair
  | .REQ_Q_MOUNT => st.qMount
  | .REQ_Q_CALL => st.qCall
  | .REQ_Q_LOW_LATENCY => st.qLow
  | .REQ_Q_HIGH_LATENCY => st.qHigh

def NfsReqSt.setQpair (st : NfsReqSt) : QIdx → QPair → NfsReqSt
  | .REQ_Q_MOUNT, qp => { st with qMount := qp }
  | .REQ_Q_CALL, qp => { st with qCall := qp }
  | .REQ_Q_LOW_LATENCY, qp => { st with qLow := qp }
  | .REQ_Q_HIGH_LATENCY, qp => { st with qHigh := qp }

/-- The empty sub-queue, as set up by nfs_rpc_q_init. -/
def emptyReqQ : ReqQ := { q := [], size := 0 }

def emptyQPair : QPair := { producer := emptyReqQ, consumer := emptyReqQ }

/-- The state after nfs_rpc_queue_init: empty queues, empty wait list,
waiters = 0, both counters 0. -/
def initialReqSt : NfsReqSt :=
  { qMount := emptyQPair, qCall := emptyQPair, qLow := emptyQPair,
    qHigh := emptyQPair, waitList := [], waiters := 0,
    enqueuedReqs := 0, dequeuedReqs := 0 }

/-- The switch at the head of nfs_rpc_enqueue_req: which queue pair a
request is routed to (`none` = the `default:` arm, `goto out`). -/
def classifyReq (reqdata : RequestData) : Option QIdx :=
  match reqdata.rtype with
  | .NFS_REQUEST =>
      if reqdata.lookahead.mountFlag then some .REQ_Q_MOUNT
      else if reqdata.lookahead.highLatency then some .REQ_Q_HIGH_LATENCY
      else some .REQ_Q_LOW_LATENCY
  | .NFS_CALL => some .REQ_Q_CALL
  | .P9_REQUEST => some .REQ_Q_LOW_LATENCY
  | .UNKNOWN_REQUEST => none

/-- `now(&reqdata->time_queued)`: stamp the request. -/
def stampReq (t : Nat) (reqdata : RequestData) : RequestData :=
  { reqdata with timeQueued := some t }

/-- The waiter-handoff block at the end of nfs_rpc_enqueue_req: under the
waitlist spinlock, if `waiters` is non-zero, detach the first entry of the
wait list, decrement the global and the per-entry waiter counts, then (under
the entry's mutex) set SyncDone and signal the entry's condvar iff WaitSync
is set.  The result carries the detached entry's updated value and whether
its condvar was signalled (`none` when no handoff happened).  The `[]` arm
with non-zero `waiters` is unreachable when `waiters` equals the list
length, the invariant the code relies on. -/
def waiterHandoff (st : NfsReqSt) : NfsReqSt × Option (WaitQEntry × Bool) :=
  if st.waiters ≠ 0 then
    match st.waitList with
    | wqe :: rest =>
        let wqe' : WaitQEntry :=
          { wqe with waiters := wqe.waiters - 1, syncDone := true }
        ({ st with waitList := rest, waiters := st.waiters - 1 },
         some (wqe', wqe'.waitSync))
    | [] => (st, none)
  else (st, none)

/-- The effect of nfs_rpc_enqueue_req once the target pair `idx` is chosen:
timestamp the request, append it to the pair's producer sub-queue
(glist_add_tail + ++size), and increment the global enqueued_reqs counter. -/
def enqueueCore (t : Nat) (reqdata : RequestData) (st : NfsReqSt)
    (idx : QIdx) : NfsReqSt :=
  let r := stampReq t reqdata
  let qp := st.qpair idx
  let qp' : QPair :=
    { qp with producer := { q := qp.producer.q ++ [r],
                            size := qp.producer.size + 1 } }
  let st' := st.setQpair idx qp'
  { st' with enqueuedReqs := st'.enqueuedReqs + 1 }

/-- nfs_rpc_enqueue_req: classify by kind and lookahead; on the `default:`
arm return with no effect; otherwise timestamp the request, append it to the
target pair's producer sub-queue, increment the global enqueued_reqs
counter, and attempt one waiter handoff. -/
def nfs_rpc_enqueue_req (t : Nat) (reqdata : RequestData) (st : NfsReqSt) :
    NfsReqSt × Option (WaitQEntry × Bool) :=
  match classifyReq reqdata with
  | none => (st, none)
  | some idx => waiterHandoff (enqueueCore t reqdata st idx)

/-- The splice arm of nfs_rpc_consume_req: glist_splice_tail moves the
whole producer list onto the tail of the consumer, then
`consumer.size = producer.size; producer.size = 0`. -/
def spliceTail (qpair : QPair) : QPair :=
  { producer := { q := [], size := 0 },
    consumer := { q := qpair.consumer.q ++ qpair.producer.q,
                  size := qpair.producer.size } }

/-- nfs_rpc_consume_req: if the consumer sub-queue's size is positive, pop
its head; else if the producer's size is positive, splice the producer onto
the consumer and pop the head of the spliced consumer; else return NULL
leaving the pair untouched.  The `[]` arms are unreachable when each
sub-queue's size equals its list length. -/
def nfs_rpc_consume_req (qpair : QPair) : Option RequestData × QPair :=
  if 0 < qpair.consumer.size then
    match qpair.consumer.q with
    | reqdata :: rest =>
        (some reqdata,
         { qpair with consumer := { q := rest,
                                    size := qpair.consumer.size - 1 } })
    | [] => (none, qpair)
  else if 0 < qpair.producer.size then
    let qp := spliceTail qpair
    match qp.consumer.q with
    | reqdata :: rest =>
        (some reqdata,
         { qp with consumer := { q := rest, size := qp.consumer.size - 1 } })
    | [] => (none, qp)
  else (none, qpair)

/-- The queue scanned at a given slot of the weighted round-robin in
nfs_rpc_dequeue_req (case 0 MOUNT, 1 CALL, 2 LOW_LATENCY, 3 HIGH_LATENCY). -/
def slotQIdx (slot : Nat) : QIdx :=
  match slot % 4 with
  | 0 => .REQ_Q_MOUNT
  | 1 => .REQ_Q_CALL
  | 2 => .REQ_Q_LOW_LATENCY
  | _ => .REQ_Q_HIGH_LATENCY

/-- Run nfs_rpc_consume_req on queue pair `idx` of the state, writing the
updated pair back. -/
def consumeAt (idx : QIdx) (st : NfsReqSt) : Option RequestData × NfsReqSt :=
  match nfs_rpc_consume_req (st.qpair idx) with
  | (res, qp') => (res, st.setQpair idx qp')

/-- The for-loop of nfs_rpc_dequeue_req: up to `n` queues tried starting at
`slot`, advancing `slot = (slot + 1) % 4`; on success the dequeued_reqs
counter is incremented and the request returned. -/
def dequeueScanFrom : NfsReqSt → Nat → Nat → Option RequestData × NfsReqSt
  | st, _, 0 => (none, st)
  | st, slot, n + 1 =>
      match consumeAt (slotQIdx slot) st with
      | (some reqdata, st') =>
          (some reqdata, { st' with dequeuedReqs := st'.dequeuedReqs + 1 })
      | (none, st') => dequeueScanFrom st' (slot + 1) n

/-- The non-blocking portion of nfs_rpc_dequeue_req: one pass over the four
queues in round-robin order starting at `slot % 4`. -/
def nfs_rpc_dequeue_scan (slot : Nat) (st : NfsReqSt) :
    Option RequestData × NfsReqSt :=
  dequeueScanFrom st (slot % 4) 4

/-- Whether the worker's wait entry is still linked on the wait list.  The
source tests `wqe->waitq.next != NULL || wqe->waitq.prev != NULL`; glist_del
(outside src/) nulls both pointers on removal, and the specification reads
this test as "is linked on the list", which membership by identity models. -/
def wqeLinked (wid : Nat) (st : NfsReqSt) : Bool :=
  st.waitList.any (fun e => e.wid == wid)

/-- The cancellation path of nfs_rpc_dequeue_req (fridgethr_you_should_break
observed during the timed wait): under the waitlist spinlock, if the
worker's entry is still linked, glist_del it, decrement the global and the
per-entry waiter counts and clear WaitSync|SyncDone; in either case return
NULL.  Results: (state, the worker's entry afterwards, returned request). -/
def nfs_rpc_dequeue_cancel (wqe : WaitQEntry) (st : NfsReqSt) :
    NfsReqSt × WaitQEntry × Option RequestData :=
  if wqeLinked wqe.wid st then
    ({ st with waitList := st.waitList.eraseP (fun e => e.wid == wqe.wid),
               waiters := st.waiters - 1 },
     { wqe with waiters := wqe.waiters - 1,
                waitSync := false, syncDone := false },
     none)
  else (st, wqe, none)

/-- Sub-queue well-formedness: the `size` counter equals the list length
(maintained by every queue operation in the source). -/
def ReqQ.wf (x : ReqQ) : Prop := x.size = x.q.length

def QPair.wf (qpair : QPair) : Prop := qpair.producer.wf ∧ qpair.consumer.wf

def NfsReqSt.wfQ (st : NfsReqSt) : Prop :=
  st.qMount.wf ∧ st.qCall.wf ∧ st.qLow.wf ∧ st.qHigh.wf

/-- The requests linked to one queue pair, consumer first (dequeue order). -/
def QPair.content (qpair : QPair) : List RequestData :=
  qpair.consumer.q ++ qpair.producer.q

/-- All requests linked to the four queue pairs. -/
def NfsReqSt.allContent (st : NfsReqSt) : List RequestData :=
  st.qMount.content ++ st.qCall.content ++ st.qLow.content ++ st.qHigh.content

/-- The sum over all four queue pairs of producer.size + consumer.size
(what nfs_rpc_outstanding_reqs_est sums). -/
def NfsReqSt.totalSize (st : NfsReqSt) : Nat :=
  (st.qMount.producer.size + st.qMount.consumer.size) +
  (st.qCall.producer.size + st.qCall.consumer.size) +
  (st.qLow.producer.size + st.qLow.consumer.size) +
  (st.qHigh.producer.size + st.qHigh.consumer.size)

/-- Queue sizes as (MOUNT, CALL, LOW, HIGH), each pair's producer+consumer. -/
def queueSizes (st : NfsReqSt) : Nat × Nat × Nat × Nat :=
  (st.qMount.producer.size + st.qMount.consumer.size,
   st.qCall.producer.size + st.qCall.consumer.size,
   st.qLow.producer.size + st.qLow.consumer.size,
   st.qHigh.producer.size + st.qHigh.consumer.size)

/-- One quiescent-point operation on the shared queues: a completed
nfs_rpc_enqueue_req or one completed scan pass of nfs_rpc_dequeue_req. -/
inductive DispatchOp
  | enq (t : Nat) (reqdata : RequestData)
  | deq (slot : Nat)
deriving DecidableEq, Repr

/-- Run a sequence of operations, collecting the requests the dequeue
passes returned, in order. -/
def runOps : NfsReqSt → List DispatchOp → NfsReqSt × List RequestData
  | st, [] => (st, [])
  | st, .enq t reqdata :: ops => runOps (nfs_rpc_enqueue_req t reqdata st).1 ops
  | st, .deq slot :: ops =>
      let r := nfs_rpc_dequeue_scan slot st
      let rec' := runOps r.2 ops
      (rec'.1, r.1.toList ++ rec'.2)

/-- The requests of a trace that nfs_rpc_enqueue_req actually places on a
queue (those that classify), stamped as the enqueue stamps them. -/
def acceptedOf : List DispatchOp → List RequestData
  | [] => []
  | .enq t reqdata :: ops =>
      match classifyReq reqdata with
      | some _ => stampReq t reqdata :: acceptedOf ops
      | none => acceptedOf ops
  | .deq _ :: ops => acceptedOf ops

/-! ## Transport-side models (decoder allocation, TCP rendezvous callback) -/

/-- enum xprt_stat. -/
inductive XprtStat
  | XPRT_IDLE
  | XPRT_DISPATCH
  | XPRT_DIED
  | XPRT_DESTROYED
deriving DecidableEq, Repr

/-- The slice of SVCXPRT the dispatcher callbacks touch: the reference
count (SVC_REF / SVC_RELEASE), the private-data slot xp_u1 (alloc'd by
alloc_gsh_xprt_private), and what SVC_STAT of the parent reports. -/
structure Xprt where
  xp_refs : Nat
  xp_u1 : Option Nat
  parentStat : XprtStat
deriving DecidableEq, Repr

/-- Observable actions nfs_rpc_tcp_user_data performs on the accepted
transport. -/
inductive DispatchEffect
  | allocPrivate
  | evchanRegister (chan : Nat)
deriving DecidableEq, Repr

/-- nfs_rpc_tcp_user_data: set up the accepted transport's private data
(xp_u1 := alloc_gsh_xprt_private(newxprt, XPRT_PRIVATE_FLAG_NONE)) and
return SVC_STAT(newxprt->xp_parent).  These two statements are the whole
body; the effect list records the calls the function makes. -/
def nfs_rpc_tcp_user_data (newxprt : Xprt) :
    Xprt × XprtStat × List DispatchEffect :=
  ({ newxprt with xp_u1 := some 0 }, newxprt.parentStat,
   [.allocPrivate])

/-- alloc_nfs_request: pool_alloc a request, rtype := NFS_REQUEST,
SVC_REF the transport, r_d_refs := 1.  Returns the request and the
transport with its reference taken. -/
def alloc_nfs_request (xprt : Xprt) (rid : Nat) : RequestData × Xprt :=
  ({ rid := rid, rtype := .NFS_REQUEST,
     lookahead := { mountFlag := false, highLatency := false },
     timeQueued := none, r_d_refs := 1, hasAuth := false,
     authReleased := false, xdrDestroyed := false, freed := false },
   { xprt with xp_refs := xprt.xp_refs + 1 })

/-- free_nfs_request: atomically decrement r_d_refs; if still non-zero,
return the remaining count leaving everything intact.  At zero, for an
NFS_REQUEST release the RPC auth (if rq_auth is set) and destroy the XDR
stream, then SVC_RELEASE the transport and pool_free the request.  Returns
(returned count, request afterwards, transport afterwards). -/
def free_nfs_request (reqdata : RequestData) (xprt : Xprt) :
    Nat × RequestData × Xprt :=
  let refs := reqdata.r_d_refs - 1
  if refs ≠ 0 then (refs, { reqdata with r_d_refs := refs }, xprt)
  else
    let reqdata' : RequestData :=
      { reqdata with
        r_d_refs := 0,
        authReleased := reqdata.rtype = RType.NFS_REQUEST && reqdata.hasAuth,
        xdrDestroyed := reqdata.rtype = RType.NFS_REQUEST,
        freed := true }
    (0, reqdata', { xprt with xp_refs := xprt.xp_refs - 1 })

/-- The branch conditions of nfs_rpc_process_request that are decided by
the external RPC library: svc_auth_authenticate's status, the
RPCSEC_GSS no_dispatch outcome, and SVCAUTH_CHECKSUM. -/
structure ProcessEnv where
  authOk : Bool
  gssNoDispatch : Bool
  checksumOk : Bool
deriving DecidableEq, Repr

/-- Which arm of nfs_rpc_process_request ran. -/
inductive ProcessOutcome
  | authRejected
  | gssInternal
  | checksumRejected
  | enqueued
deriving DecidableEq, Repr

/-- nfs_rpc_process_request: authenticate (reject on failure), return early
on a GSS internal negotiation, reject on checksum failure; on the success
path increment r_d_refs and call nfs_rpc_enqueue_req.  Returns the arm
taken, the request as the worker/queue now sees it, and the queue state. -/
def nfs_rpc_process_request (env : ProcessEnv) (t : Nat)
    (reqdata : RequestData) (st : NfsReqSt) :
    ProcessOutcome × RequestData × NfsReqSt :=
  if env.authOk = false then (.authRejected, reqdata, st)
  else if env.gssNoDispatch then (.gssInternal, reqdata, st)
  else if env.checksumOk = false then (.checksumRejected, reqdata, st)
  else
    let reqdata' := { reqdata with r_d_refs := reqdata.r_d_refs + 1 }
    (.enqueued, reqdata', (nfs_rpc_enqueue_req t reqdata' st).1)

/-! ## Endpoint manager (Allocate_sockets / Bind_sockets) -/

/-- enum protos. -/
inductive Proto
  | P_NFS
  | P_MNT
  | P_NLM
  | P_RQUOTA
  | P_NFS_VSOCK
  | P_NFS_RDMA
deriving DecidableEq, Repr

/-- Iteration order of `for (p = P_NFS; p < P_COUNT; p++)`. -/
def protoList : List Proto :=
  [.P_NFS, .P_MNT, .P_NLM, .P_RQUOTA, .P_NFS_VSOCK, .P_NFS_RDMA]

/-- The configuration bits nfs_protocol_enabled consults. -/
structure CoreConfig where
  nfsv3 : Bool
  enableNLM : Bool
  enableRQUOTA : Bool
deriving DecidableEq, Repr

/-- nfs_protocol_enabled. -/
def nfs_protocol_enabled (cfg : CoreConfig) : Proto → Bool
  | .P_NFS => true
  | .P_MNT => cfg.nfsv3
  | .P_NLM => cfg.nfsv3 && cfg.enableNLM
  | .P_RQUOTA => cfg.enableRQUOTA
  | .P_NFS_VSOCK => false
  | .P_NFS_RDMA => false

inductive AddrFamily
  | AF_INET
  | AF_INET6
  | AF_VSOCK
deriving DecidableEq, Repr

inductive SockKind
  | udp
  | tcp
deriving DecidableEq, Repr

/-- Outcome of a socket(2) call: success, failure with errno EAFNOSUPPORT,
or failure with any other errno. -/
inductive SockRes
  | ok
  | errAFNoSupport
  | errOther
deriving DecidableEq, Repr

/-- One socket(2) call as made by Allocate_sockets. -/
structure SockCall where
  family : AddrFamily
  kind : SockKind
deriving DecidableEq, Repr

/-- Allocation state: the process-wide v6disabled flag, the log of socket
calls made so far, and the LogFatal reason if the process aborted
(LogFatal does not return).  Socket-option calls (alloc_socket_setopts)
are modelled as succeeding: the claims checked here do not involve them. -/
structure AllocSt where
  v6disabled : Bool
  calls : List SockCall
  fatal : Option String
deriving DecidableEq, Repr

/-- Make one socket(2) call; the oracle maps the index of the call (in
program order) to its outcome. -/
def sockCall (oracle : Nat → SockRes) (st : AllocSt)
    (fam : AddrFamily) (k : SockKind) : AllocSt × SockRes :=
  ({ st with calls := st.calls ++ [{ family := fam, kind := k }] },
   oracle st.calls.length)

/-- Allocate_sockets_V4: AF_INET udp then tcp; any failure returns -1
(modelled as `false`). -/
def Allocate_sockets_V4 (oracle : Nat → SockRes) (st0 : AllocSt) :
    AllocSt × Bool :=
  match sockCall oracle st0 .AF_INET .udp with
  | (st1, r1) =>
      if r1 = .ok then
        match sockCall oracle st1 .AF_INET .tcp with
        | (st2, r2) => if r2 = .ok then (st2, true) else (st2, false)
      else (st1, false)

/-- The `try_V4` label: reached with v6disabled true, runs
Allocate_sockets_V4 and LogFatals on its failure. -/
def tryV4 (oracle : Nat → SockRes) (st0 : AllocSt) : AllocSt :=
  match Allocate_sockets_V4 oracle st0 with
  | (st1, okb) =>
      if okb then st1
      else { st1 with fatal := some "Error allocating V4 socket" }

/-- The body of Allocate_sockets for one enabled protocol: skip straight to
try_V4 when v6disabled; else attempt the AF_INET6 udp socket — on
EAFNOSUPPORT set v6disabled and fall back to try_V4, on another error
LogFatal; then the AF_INET6 tcp socket, whose failure is always fatal. -/
def allocOneProto (oracle : Nat → SockRes) (st0 : AllocSt) : AllocSt :=
  if st0.v6disabled then tryV4 oracle st0
  else
    match sockCall oracle st0 .AF_INET6 .udp with
    | (st1, r1) =>
        if r1 = .ok then
          match sockCall oracle st1 .AF_INET6 .tcp with
          | (st2, r2) =>
              if r2 = .ok then st2
              else { st2 with fatal := some "Cannot allocate a tcp socket" }
        else if r1 = .errAFNoSupport then
          tryV4 oracle { st1 with v6disabled := true }
        else { st1 with fatal := some "Cannot allocate a udp socket" }

/-- allocate_socket_vsock: one AF_VSOCK stream socket; failure is logged
and ignored by the caller. -/
def allocate_socket_vsock (oracle : Nat → SockRes) (st : AllocSt) : AllocSt :=
  (sockCall oracle st .AF_VSOCK .tcp).1

/-- One iteration of Allocate_sockets' protocol loop.  Once LogFatal has
fired the process is gone, so later iterations do nothing. -/
def allocStep (oracle : Nat → SockRes) (cfg : CoreConfig)
    (st : AllocSt) (p : Proto) : AllocSt :=
  if st.fatal.isSome then st
  else if nfs_protocol_enabled cfg p then allocOneProto oracle st
  else st

/-- Allocate_sockets: loop over all protocols (enabled ones only), then the
optional vsock socket.  v6disabled starts false (non-FreeBSD build, set in
nfs_Init_svc). -/
def Allocate_sockets (oracle : Nat → SockRes) (cfg : CoreConfig)
    (vsock : Bool) : AllocSt :=
  let st0 : AllocSt := { v6disabled := false, calls := [], fatal := none }
  let st := protoList.foldl (allocStep oracle cfg) st0
  if st.fatal.isNone && vsock then allocate_socket_vsock oracle st else st

/-- The wildcard address a bind uses. -/
inductive BindAddr
  | INADDR_ANY
  | in6addr_any
  | VMADDR_CID_ANY
deriving DecidableEq, Repr

/-- One bind(2) call as made by Bind_sockets. -/
structure BindRec where
  family : AddrFamily
  addr : BindAddr
  proto : Proto
  kind : SockKind
deriving DecidableEq, Repr

/-- Bind_sockets_V4's loop: for each enabled protocol bind the udp then the
tcp socket to (AF_INET, INADDR_ANY, port); the first failure returns -1
immediately.  `bindOk` is the outcome bind(2) would give.
(__rpc_fd2sockinfo is modelled as succeeding.) -/
def bindLoopV4 (cfg : CoreConfig) (bindOk : Proto → SockKind → Bool) :
    List Proto → List BindRec × Bool
  | [] => ([], true)
  | p :: ps =>
      if nfs_protocol_enabled cfg p then
        let r1 : BindRec := { family := .AF_INET, addr := .INADDR_ANY,
                              proto := p, kind := .udp }
        if bindOk p .udp then
          let r2 : BindRec := { family := .AF_INET, addr := .INADDR_ANY,
                                proto := p, kind := .tcp }
          if bindOk p .tcp then
            let rec4 := bindLoopV4 cfg bindOk ps
            (r1 :: r2 :: rec4.1, rec4.2)
          else ([r1, r2], false)
        else ([r1], false)
      else bindLoopV4 cfg bindOk ps

/-- Bind_sockets_V6's loop: same with (AF_INET6, in6addr_any); a failure
does `goto exit` returning the failed rc. -/
def bindLoopV6 (cfg : CoreConfig) (bindOk : Proto → SockKind → Bool) :
    List Proto → List BindRec × Bool
  | [] => ([], true)
  | p :: ps =>
      if nfs_protocol_enabled cfg p then
        let r1 : BindRec := { family := .AF_INET6, addr := .in6addr_any,
                              proto := p, kind := .udp }
        if bindOk p .udp then
          let r2 : BindRec := { family := .AF_INET6, addr := .in6addr_any,
                                proto := p, kind := .tcp }
          if bindOk p .tcp then
            let rec6 := bindLoopV6 cfg bindOk ps
            (r1 :: r2 :: rec6.1, rec6.2)
          else ([r1, r2], false)
        else ([r1], false)
      else bindLoopV6 cfg bindOk ps

/-- Bind_sockets: bind the V4 interfaces when v6disabled, else the V6
interfaces — LogFatal if that fails; then, when vsock is enabled, bind the
vsock socket (VMADDR_CID_ANY), whose failure is only logged (LogMajor,
"continuing startup").  Returns the binds performed and the LogFatal
reason, if any. -/
def Bind_sockets (cfg : CoreConfig) (v6disabled vsock : Bool)
    (bindOk : Proto → SockKind → Bool) (_vsockBindOk : Bool) :
    List BindRec × Option String :=
  match (if v6disabled then bindLoopV4 cfg bindOk protoList
         else bindLoopV6 cfg bindOk protoList) with
  | (rs, okb) =>
      if okb then
        if vsock then
          (rs ++ [{ family := .AF_VSOCK, addr := .VMADDR_CID_ANY,
                    proto := .P_NFS_VSOCK, kind := .tcp }], none)
        else (rs, none)
      else (rs, some "Error binding. Cannot continue.")

/-! ## Concrete inputs used by witnesses -/

/-- An NFS_REQUEST whose lookahead flags contain MOUNT. -/
def reqMount : RequestData :=
  { rid := 1, rtype := .NFS_REQUEST,
    lookahead := { mountFlag := true, highLatency := false } }

/-- An NFS_REQUEST with the high-latency predicate true, MOUNT false. -/
def reqHigh : RequestData :=
  { rid := 2, rtype := .NFS_REQUEST,
    lookahead := { mountFlag := false, highLatency := true } }

/-- An NFS_REQUEST with MOUNT false and the high-latency predicate false. -/
def reqLow (n : Nat) : RequestData :=
  { rid := n, rtype := .NFS_REQUEST,
    lookahead := { mountFlag := false, highLatency := false } }

/-- An NFS_CALL request. -/
def reqCall : RequestData :=
  { rid := 3, rtype := .NFS_CALL,
    lookahead := { mountFlag := false, highLatency := false } }

/-- A request of the remaining kind (hits the `default:` arm). -/
def reqUnknown : RequestData :=
  { rid := 4, rtype := .UNKNOWN_REQUEST,
    lookahead := { mountFlag := true, highLatency := true } }

/-- A wait entry as published by a parked worker. -/
def parkedWqe (n : Nat) : WaitQEntry :=
  { wid := n, waiters := 1, waitSync := true, syncDone := false }

/-- A queue pair whose producer holds requests reqLow 1 .. reqLow n. -/
def producerOnly (n : Nat) : QPair :=
  { producer := { q := (List.range n).map (fun i => reqLow (i + 1)),
                  size := n },
    consumer := emptyReqQ }

/-- The initial state with one parked worker on the wait list. -/
def stWithWaiter : NfsReqSt :=
  { initialReqSt with waitList := [parkedWqe 7], waiters := 1 }

/-- Repeated nfs_rpc_consume_req with no concurrent activity: n successive
dequeues from one queue pair, collecting the returned requests in order
(stopping early if a consume returns NULL). -/
def consumeN : Nat → QPair → List RequestData × QPair
  | 0, qpair => ([], qpair)
  | n + 1, qpair =>
      match nfs_rpc_consume_req qpair with
      | (some reqdata, qp') =>
          match consumeN n qp' with
          | (rs, qpF) => (reqdata :: rs, qpF)
      | (none, qp') => ([], qp')

/-- A concrete transport. -/
def xprt0 : Xprt := { xp_refs := 1, xp_u1 := none, parentStat := .XPRT_IDLE }

/-- The all-success processing environment. -/
def env0 : ProcessEnv :=
  { authOk := true, gssNoDispatch := false, checksumOk := true }

/-- A request holding two references (queue + caller). -/
def req2 : RequestData := { reqLow 5 with r_d_refs := 2 }

/-- A concrete trace: enqueue a MOUNT request and a call, then drain. -/
def opsW : List DispatchOp :=
  [.enq 0 reqMount, .enq 1 reqCall, .deq 0, .deq 0]

/-- A socket oracle whose very first socket(2) call fails with
EAFNOSUPPORT and whose later calls succeed. -/
def oracleAF : Nat → SockRes :=
  fun n => if n = 0 then .errAFNoSupport else .ok

/-- A concrete configuration with every optional protocol enabled. -/
def cfg0 : CoreConfig :=
  { nfsv3 := true, enableNLM := true, enableRQUOTA := true }

end NfsDispatch

namespace NfsDispatch

/-! ## Framing lemmas -/

theorem setQpair_waitList (st : NfsReqSt) (idx : QIdx) (qp : QPair) :
    (st.setQpair idx qp).waitList = st.waitList := by
  cases idx <;> rfl

theorem setQpair_waiters (st : NfsReqSt) (idx : QIdx) (qp : QPair) :
    (st.setQpair idx qp).waiters = st.waiters := by
  cases idx <;> rfl

theorem enqueueCore_waitList (t : Nat) (reqdata : RequestData)
    (st : NfsReqSt) (idx : QIdx) :
    (enqueueCore t reqdata st idx).waitList = st.waitList := by
  cases idx <;> rfl

theorem enqueueCore_waiters (t : Nat) (reqdata : RequestData)
    (st : NfsReqSt) (idx : QIdx) :
    (enqueueCore t reqdata st idx).waiters = st.waiters := by
  cases idx <;> rfl

theorem enqueueCore_enqueued (t : Nat) (reqdata : RequestData)
    (st : NfsReqSt) (idx : QIdx) :
    (enqueueCore t reqdata st idx).enqueuedReqs = st.enqueuedReqs + 1 := by
  cases idx <;> rfl

theorem enqueueCore_dequeued (t : Nat) (reqdata : RequestData)
    (st : NfsReqSt) (idx : QIdx) :
    (enqueueCore t reqdata st idx).dequeuedReqs = st.dequeuedReqs := by
  cases idx <;> rfl

theorem waiterHandoff_zero (st : NfsReqSt) (h : st.waiters = 0) :
    waiterHandoff st = (st, none) := by
  unfold waiterHandoff
  simp [h]

theorem waiterHandoff_pos (st : NfsReqSt) (h : 0 < st.waiters)
    (wqe : WaitQEntry) (rest : List WaitQEntry)
    (hl : st.waitList = wqe :: rest) :
    waiterHandoff st =
      ({ st with waitList := rest, waiters := st.waiters - 1 },
       some ({ wqe with waiters := wqe.waiters - 1, syncDone := true },
             wqe.waitSync)) := by
  unfold waiterHandoff
  rw [hl]
  simp [Nat.pos_iff_ne_zero.mp h]

theorem waiterHandoff_queues (st : NfsReqSt) :
    (waiterHandoff st).1.qMount = st.qMount ∧
    (waiterHandoff st).1.qCall = st.qCall ∧
    (waiterHandoff st).1.qLow = st.qLow ∧
    (waiterHandoff st).1.qHigh = st.qHigh ∧
    (waiterHandoff st).1.enqueuedReqs = st.enqueuedReqs ∧
    (waiterHandoff st).1.dequeuedReqs = st.dequeuedReqs := by
  rcases Nat.eq_zero_or_pos st.waiters with h | h
  · rw [waiterHandoff_zero st h]
    exact ⟨rfl, rfl, rfl, rfl, rfl, rfl⟩
  · match hl : st.waitList with
    | [] =>
        unfold waiterHandoff
        rw [hl]
        simp [Nat.pos_iff_ne_zero.mp h]
    | wqe :: rest =>
        rw [waiterHandoff_pos st h wqe rest hl]
        exact ⟨rfl, rfl, rfl, rfl, rfl, rfl⟩

/-! ## C1: enqueue classification -/

/-- C1: nfs_rpc_enqueue_req routes an NFS_REQUEST whose lookahead flags
contain MOUNT to the MOUNT pair's producer sub-queue; an NFS_REQUEST
without MOUNT but with the high-latency predicate to HIGH_LATENCY; any
other NFS_REQUEST to LOW_LATENCY; an NFS_CALL to CALL; and in each case no
other sub-queue changes.  Concretely, one MOUNT-flagged NFS_REQUEST into
the empty system gives sizes (MOUNT, CALL, LOW, HIGH) = (1, 0, 0, 0), and
one high-latency NFS_REQUEST gives (0, 0, 0, 1). -/
theorem nfs_rpc_enqueue_req_classifies (t : Nat) (reqdata : RequestData)
    (st : NfsReqSt) :
    (reqdata.rtype = RType.NFS_REQUEST → reqdata.lookahead.mountFlag = true →
       (nfs_rpc_enqueue_req t reqdata st).1.qMount.producer.q
           = st.qMount.producer.q ++ [stampReq t reqdata]
     ∧ (nfs_rpc_enqueue_req t reqdata st).1.qMount.producer.size
           = st.qMount.producer.size + 1
     ∧ (nfs_rpc_enqueue_req t reqdata st).1.qMount.consumer = st.qMount.consumer
     ∧ (nfs_rpc_enqueue_req t reqdata st).1.qCall = st.qCall
     ∧ (nfs_rpc_enqueue_req t reqdata st).1.qLow = st.qLow
     ∧ (nfs_rpc_enqueue_req t reqdata st).1.qHigh = st.qHigh)
  ∧ (reqdata.rtype = RType.NFS_REQUEST → reqdata.lookahead.mountFlag = false →
     reqdata.lookahead.highLatency = true →
       (nfs_rpc_enqueue_req t reqdata st).1.qHigh.producer.q
           = st.qHigh.producer.q ++ [stampReq t reqdata]
     ∧ (nfs_rpc_enqueue_req t reqdata st).1.qHigh.producer.size
           = st.qHigh.producer.size + 1
     ∧ (nfs_rpc_enqueue_req t reqdata st).1.qHigh.consumer = st.qHigh.consumer
     ∧ (nfs_rpc_enqueue_req t reqdata st).1.qMount = st.qMount
     ∧ (nfs_rpc_enqueue_req t reqdata st).1.qCall = st.qCall
     ∧ (nfs_rpc_enqueue_req t reqdata st).1.qLow = st.qLow)
  ∧ (reqdata.rtype = RType.NFS_REQUEST → reqdata.lookahead.mountFlag = false →
     reqdata.lookahead.highLatency = false →
       (nfs_rpc_enqueue_req t reqdata st).1.qLow.producer.q
           = st.qLow.producer.q ++ [stampReq t reqdata]
     ∧ (nfs_rpc_enqueue_req t reqdata st).1.qLow.producer.size
           = st.qLow.producer.size + 1
     ∧ (nfs_rpc_enqueue_req t reqdata st).1.qLow.consumer = st.qLow.consumer
     ∧ (nfs_rpc_enqueue_req t reqdata st).1.qMount = st.qMount
     ∧ (nfs_rpc_enqueue_req t reqdata st).1.qCall = st.qCall
     ∧ (nfs_rpc_enqueue_req t reqdata st).1.qHigh = st.qHigh)
  ∧ (reqdata.rtype = RType.NFS_CALL →
       (nfs_rpc_enqueue_req t reqdata st).1.qCall.producer.q
           = st.qCall.producer.q ++ [stampReq t reqdata]
     ∧ (nfs_rpc_enqueue_req t reqdata st).1.qCall.producer.size
           = st.qCall.producer.size + 1
     ∧ (nfs_rpc_enqueue_req t reqdata st).1.qCall.consumer = st.qCall.consumer
     ∧ (nfs_rpc_enqueue_req t reqdata st).1.qMount = st.qMount
     ∧ (nfs_rpc_enqueue_req t reqdata st).1.qLow = st.qLow
     ∧ (nfs_rpc_enqueue_req t reqdata st).1.qHigh = st.qHigh)
  ∧ queueSizes (nfs_rpc_enqueue_req 0 reqMount initialReqSt).1 = (1, 0, 0, 0)
  ∧ queueSizes (nfs_rpc_enqueue_req 0 reqHigh initialReqSt).1 = (0, 0, 0, 1) := by
  refine ⟨?_, ?_, ?_, ?_, by decide, by decide⟩
  · intro h1 h2
    have hc : classifyReq reqdata = some QIdx.REQ_Q_MOUNT := by
      simp [classifyReq, h1, h2]
    have he : nfs_rpc_enqueue_req t reqdata st
        = waiterHandoff (enqueueCore t reqdata st .REQ_Q_MOUNT) := by
      simp [nfs_rpc_enqueue_req, hc]
    obtain ⟨hm, hca, hlo, hhi, _, _⟩ :=
      waiterHandoff_queues (enqueueCore t reqdata st .REQ_Q_MOUNT)
    rw [he]
    exact ⟨by rw [hm]; rfl, by rw [hm]; rfl, by rw [hm]; rfl, by rw [hca]; rfl, by rw [hlo]; rfl,
           by rw [hhi]; rfl⟩
  · intro h1 h2 h3
    have hc : classifyReq reqdata = some QIdx.REQ_Q_HIGH_LATENCY := by
      simp [classifyReq, h1, h2, h3]
    have he : nfs_rpc_enqueue_req t reqdata st
        = waiterHandoff (enqueueCore t reqdata st .REQ_Q_HIGH_LATENCY) := by
      simp [nfs_rpc_enqueue_req, hc]
    obtain ⟨hm, hca, hlo, hhi, _, _⟩ :=
      waiterHandoff_queues (enqueueCore t reqdata st .REQ_Q_HIGH_LATENCY)
    rw [he]
    exact ⟨by rw [hhi]; rfl, by rw [hhi]; rfl, by rw [hhi]; rfl, by rw [hm]; rfl, by rw [hca]; rfl,
           by rw [hlo]; rfl⟩
  · intro h1 h2 h3
    have hc : classifyReq reqdata = some QIdx.REQ_Q_LOW_LATENCY := by
      simp [classifyReq, h1, h2, h3]
    have he : nfs_rpc_enqueue_req t reqdata st
        = waiterHandoff (enqueueCore t reqdata st .REQ_Q_LOW_LATENCY) := by
      simp [nfs_rpc_enqueue_req, hc]
    obtain ⟨hm, hca, hlo, hhi, _, _⟩ :=
      waiterHandoff_queues (enqueueCore t reqdata st .REQ_Q_LOW_LATENCY)
    rw [he]
    exact ⟨by rw [hlo]; rfl, by rw [hlo]; rfl, by rw [hlo]; rfl, by rw [hm]; rfl, by rw [hca]; rfl,
           by rw [hhi]; rfl⟩
  · intro h1
    have hc : classifyReq reqdata = some QIdx.REQ_Q_CALL := by
      simp [classifyReq, h1]
    have he : nfs_rpc_enqueue_req t reqdata st
        = waiterHandoff (enqueueCore t reqdata st .REQ_Q_CALL) := by
      simp [nfs_rpc_enqueue_req, hc]
    obtain ⟨hm, hca, hlo, hhi, _, _⟩ :=
      waiterHandoff_queues (enqueueCore t reqdata st .REQ_Q_CALL)
    rw [he]
    exact ⟨by rw [hca]; rfl, by rw [hca]; rfl, by rw [hca]; rfl, by rw [hm]; rfl, by rw [hlo]; rfl,
           by rw [hhi]; rfl⟩

/-- C1 witness: the MOUNT scenario evaluated on the empty system. -/
theorem nfs_rpc_enqueue_req_classifies_witness :
    queueSizes (nfs_rpc_enqueue_req 0 reqMount initialReqSt).1 = (1, 0, 0, 0)
  ∧ (nfs_rpc_enqueue_req 0 reqMount initialReqSt).1.qMount.producer.q
      = [stampReq 0 reqMount] := by
  have h := nfs_rpc_enqueue_req_classifies 0 reqMount initialReqSt
  refine ⟨h.2.2.2.2.1, ?_⟩
  have hm := (h.1 rfl rfl).1
  simpa using hm

/-! ## C10: the default arm is a no-op -/

/-- C10: for a request whose kind is none of NFS_REQUEST, NFS_CALL,
_9P_REQUEST, nfs_rpc_enqueue_req has no observable effect: the state
(queues, counters, wait list) is returned unchanged and no waiter is
detached or signalled, even when waiters > 0. -/
theorem nfs_rpc_enqueue_req_unknown_noop (t : Nat) (reqdata : RequestData)
    (st : NfsReqSt) (h : reqdata.rtype = RType.UNKNOWN_REQUEST) :
    nfs_rpc_enqueue_req t reqdata st = (st, none) := by
  have hc : classifyReq reqdata = none := by simp [classifyReq, h]
  simp [nfs_rpc_enqueue_req, hc]

/-- C10 witness: an unknown-kind request on a state with a parked waiter. -/
theorem nfs_rpc_enqueue_req_unknown_noop_witness :
    nfs_rpc_enqueue_req 5 reqUnknown stWithWaiter = (stWithWaiter, none) :=
  nfs_rpc_enqueue_req_unknown_noop 5 reqUnknown stWithWaiter rfl

/-! ## C3: single-waiter handoff -/

/-- C3: an enqueue that reaches the handoff step (its request classifies)
with waiters > 0 removes exactly the head entry of the wait list,
decrements the global and the per-entry waiter counts by one, sets the
entry's SYNC_DONE flag and signals its condvar iff WAIT_SYNC is set; with
waiters = 0 it modifies no wait-list entry. -/
theorem nfs_rpc_enqueue_req_handoff (t : Nat) (reqdata : RequestData)
    (st : NfsReqSt) (hcls : (classifyReq reqdata).isSome = true)
    (hwf : st.waiters = st.waitList.length) :
    (0 < st.waiters →
       ∃ wqe rest, st.waitList = wqe :: rest
         ∧ (nfs_rpc_enqueue_req t reqdata st).1.waitList = rest
         ∧ (nfs_rpc_enqueue_req t reqdata st).1.waiters = st.waiters - 1
         ∧ (nfs_rpc_enqueue_req t reqdata st).2
             = some ({ wqe with waiters := wqe.waiters - 1, syncDone := true },
                     wqe.waitSync))
  ∧ (st.waiters = 0 →
       (nfs_rpc_enqueue_req t reqdata st).1.waitList = st.waitList
     ∧ (nfs_rpc_enqueue_req t reqdata st).1.waiters = 0
     ∧ (nfs_rpc_enqueue_req t reqdata st).2 = none) := by
  obtain ⟨idx, heq⟩ := Option.isSome_iff_exists.mp hcls
  have he : nfs_rpc_enqueue_req t reqdata st
      = waiterHandoff (enqueueCore t reqdata st idx) := by
    simp [nfs_rpc_enqueue_req, heq]
  constructor
  · intro hw
    cases hl : st.waitList with
    | nil => rw [hl] at hwf; simp at hwf; omega
    | cons wqe rest =>
        refine ⟨wqe, rest, rfl, ?_⟩
        have hw' : 0 < (enqueueCore t reqdata st idx).waiters := by
          rw [enqueueCore_waiters]; exact hw
        have hl' : (enqueueCore t reqdata st idx).waitList = wqe :: rest := by
          rw [enqueueCore_waitList]; exact hl
        rw [he, waiterHandoff_pos _ hw' wqe rest hl']
        exact ⟨rfl, by simp [enqueueCore_waiters], rfl⟩
  · intro hz
    have hz' : (enqueueCore t reqdata st idx).waiters = 0 := by
      rw [enqueueCore_waiters]; exact hz
    rw [he, waiterHandoff_zero _ hz']
    exact ⟨enqueueCore_waitList t reqdata st idx,
           by rw [enqueueCore_waiters]; exact hz, rfl⟩

/-- C3 witness: enqueueing into a state with one parked waiter. -/
theorem nfs_rpc_enqueue_req_handoff_witness :
    ∃ wqe rest, stWithWaiter.waitList = wqe :: rest
      ∧ (nfs_rpc_enqueue_req 3 (reqLow 1) stWithWaiter).1.waitList = rest
      ∧ (nfs_rpc_enqueue_req 3 (reqLow 1) stWithWaiter).1.waiters
          = stWithWaiter.waiters - 1
      ∧ (nfs_rpc_enqueue_req 3 (reqLow 1) stWithWaiter).2
          = some ({ wqe with waiters := wqe.waiters - 1, syncDone := true },
                  wqe.waitSync) :=
  (nfs_rpc_enqueue_req_handoff 3 (reqLow 1) stWithWaiter (by decide)
    (by decide)).1 (by decide)

/-! ## C5: the TCP rendezvous callback -/

/-- C5 counterexample: nfs_rpc_tcp_user_data performs no event-channel
registration at all on a concrete accepted transport (its body only
allocates the private data and returns the parent's status), refuting the
claim that it registers the new transport on a worker channel. -/
theorem nfs_rpc_tcp_user_data_no_register :
    ¬ ∃ chan, DispatchEffect.evchanRegister chan ∈
        (nfs_rpc_tcp_user_data
          { xp_refs := 1, xp_u1 := none, parentStat := .XPRT_IDLE }).2.2 := by
  rintro ⟨chan, hmem⟩
  simp [nfs_rpc_tcp_user_data] at hmem

/-- C5 amended: for every accepted connection, nfs_rpc_tcp_user_data
allocates the connection's private data and returns the parent transport's
status; it performs no event-channel registration itself (in this snapshot
the accepted transport's channel assignment is handled by the RPC
library). -/
theorem nfs_rpc_tcp_user_data_spec (newxprt : Xprt) :
    nfs_rpc_tcp_user_data newxprt
        = ({ newxprt with xp_u1 := some 0 }, newxprt.parentStat,
           [DispatchEffect.allocPrivate])
  ∧ ∀ chan, DispatchEffect.evchanRegister chan ∉
        (nfs_rpc_tcp_user_data newxprt).2.2 := by
  refine ⟨rfl, ?_⟩
  intro chan hmem
  simp [nfs_rpc_tcp_user_data] at hmem

end NfsDispatch

namespace NfsDispatch

/-! ## C7: cancellation while parked -/

theorem eraseP_unlinks (w : Nat) (l : List WaitQEntry)
    (hnd : (l.map WaitQEntry.wid).Nodup) :
    (l.eraseP (fun e => e.wid == w)).any (fun e => e.wid == w) = false := by
  induction l with
  | nil => rfl
  | cons e rest ih =>
      simp only [List.map_cons, List.nodup_cons] at hnd
      by_cases he : e.wid = w
      · rw [List.eraseP_cons_of_pos (by simp [he])]
        rw [List.any_eq_false]
        intro x hx
        simp only [beq_iff_eq]
        intro hxw
        apply hnd.1
        rw [he, ← hxw]
        exact List.mem_map_of_mem WaitQEntry.wid hx
      · rw [List.eraseP_cons_of_neg (by simp [he])]
        rw [List.any_cons, Bool.or_eq_false_iff]
        exact ⟨by simp [he], ih hnd.2⟩

theorem length_eraseP_linked (w : Nat) (l : List WaitQEntry)
    (h : l.any (fun e => e.wid == w) = true) :
    (l.eraseP (fun e => e.wid == w)).length + 1 = l.length := by
  rw [List.any_eq_true] at h
  obtain ⟨x, hx, hpx⟩ := h
  exact List.length_eraseP_add_one hx hpx

/-- C7 counterexample: a worker whose wait entry was already detached by a
producer (handoff set WAIT_SYNC|SYNC_DONE and unlinked it) observes
cancellation; the cancellation path leaves the entry's flags set, refuting
the claim that WAIT_SYNC and SYNC_DONE are cleared whether or not a
producer had already detached the entry. -/
theorem nfs_rpc_dequeue_cancel_flags_not_cleared :
    ¬ (((nfs_rpc_dequeue_cancel
          { wid := 9, waiters := 0, waitSync := true, syncDone := true }
          initialReqSt).2.1.waitSync = false)
     ∧ ((nfs_rpc_dequeue_cancel
          { wid := 9, waiters := 0, waitSync := true, syncDone := true }
          initialReqSt).2.1.syncDone = false)) := by
  decide

/-- C7 amended: a worker observing cancellation while parked always gets
NULL back, its entry ends unlinked, and the global waiter count again
equals the number of entries on the list.  The entry's WAIT_SYNC and
SYNC_DONE flags are cleared (and its waiter count decremented) only when
the entry was still linked at cancellation; when a producer had already
detached it, the entry and the wait list are left untouched. -/
theorem nfs_rpc_dequeue_cancel_spec (wqe : WaitQEntry) (st : NfsReqSt)
    (hwf : st.waiters = st.waitList.length)
    (hnodup : (st.waitList.map WaitQEntry.wid).Nodup) :
    (nfs_rpc_dequeue_cancel wqe st).2.2 = none
  ∧ wqeLinked wqe.wid (nfs_rpc_dequeue_cancel wqe st).1 = false
  ∧ (nfs_rpc_dequeue_cancel wqe st).1.waiters
        = (nfs_rpc_dequeue_cancel wqe st).1.waitList.length
  ∧ (wqeLinked wqe.wid st = true →
       (nfs_rpc_dequeue_cancel wqe st).2.1.waitSync = false
     ∧ (nfs_rpc_dequeue_cancel wqe st).2.1.syncDone = false
     ∧ (nfs_rpc_dequeue_cancel wqe st).2.1.waiters = wqe.waiters - 1)
  ∧ (wqeLinked wqe.wid st = false →
       (nfs_rpc_dequeue_cancel wqe st).1 = st
     ∧ (nfs_rpc_dequeue_cancel wqe st).2.1 = wqe) := by
  by_cases hl : wqeLinked wqe.wid st = true
  · have hred : nfs_rpc_dequeue_cancel wqe st =
        ({ st with waitList := st.waitList.eraseP (fun e => e.wid == wqe.wid),
                   waiters := st.waiters - 1 },
         { wqe with waiters := wqe.waiters - 1,
                    waitSync := false, syncDone := false },
         none) := by
      unfold nfs_rpc_dequeue_cancel
      simp [hl]
    rw [hred]
    refine ⟨rfl, ?_, ?_, fun _ => ⟨rfl, rfl, rfl⟩, fun hnl => by simp [hnl] at hl⟩
    · show (st.waitList.eraseP (fun e => e.wid == wqe.wid)).any
          (fun e => e.wid == wqe.wid) = false
      exact eraseP_unlinks wqe.wid st.waitList hnodup
    · show st.waiters - 1
          = (st.waitList.eraseP (fun e => e.wid == wqe.wid)).length
      have h2 := length_eraseP_linked wqe.wid st.waitList
        (by simpa [wqeLinked] using hl)
      omega
  · have hl' : wqeLinked wqe.wid st = false := by simpa using hl
    have hred : nfs_rpc_dequeue_cancel wqe st = (st, wqe, none) := by
      unfold nfs_rpc_dequeue_cancel
      simp [hl']
    rw [hred]
    exact ⟨rfl, hl', hwf, (fun h => by simp [hl'] at h),
           (fun _ => ⟨rfl, rfl⟩)⟩

/-- C7 witness: cancellation of the single parked worker, still linked. -/
theorem nfs_rpc_dequeue_cancel_spec_witness :
    (nfs_rpc_dequeue_cancel (parkedWqe 7) stWithWaiter).2.2 = none
  ∧ wqeLinked (parkedWqe 7).wid
        (nfs_rpc_dequeue_cancel (parkedWqe 7) stWithWaiter).1 = false
  ∧ (nfs_rpc_dequeue_cancel (parkedWqe 7) stWithWaiter).1.waiters
        = (nfs_rpc_dequeue_cancel (parkedWqe 7) stWithWaiter).1.waitList.length
  ∧ (wqeLinked (parkedWqe 7).wid stWithWaiter = true →
       (nfs_rpc_dequeue_cancel (parkedWqe 7) stWithWaiter).2.1.waitSync = false
     ∧ (nfs_rpc_dequeue_cancel (parkedWqe 7) stWithWaiter).2.1.syncDone = false
     ∧ (nfs_rpc_dequeue_cancel (parkedWqe 7) stWithWaiter).2.1.waiters
           = (parkedWqe 7).waiters - 1)
  ∧ (wqeLinked (parkedWqe 7).wid stWithWaiter = false →
       (nfs_rpc_dequeue_cancel (parkedWqe 7) stWithWaiter).1 = stWithWaiter
     ∧ (nfs_rpc_dequeue_cancel (parkedWqe 7) stWithWaiter).2.1 = parkedWqe 7) :=
  nfs_rpc_dequeue_cancel_spec (parkedWqe 7) stWithWaiter (by decide) (by decide)

end NfsDispatch

namespace NfsDispatch

/-! ## C4: consume / splice -/

/-- nfs_rpc_consume_req on a well-formed pair pops the head of the pair's
combined content (consumer then producer), returns the pair with the tail
as combined content and well-formed again, and leaves the pair untouched
when it returns NULL. -/
theorem nfs_rpc_consume_req_content (qpair : QPair) (hwf : qpair.wf) :
    (nfs_rpc_consume_req qpair).1 = qpair.content.head?
  ∧ (nfs_rpc_consume_req qpair).2.content = qpair.content.tail
  ∧ (nfs_rpc_consume_req qpair).2.wf
  ∧ ((nfs_rpc_consume_req qpair).1 = none →
       (nfs_rpc_consume_req qpair).2 = qpair) := by
  obtain ⟨hp, hc⟩ := hwf
  unfold ReqQ.wf at hp hc
  by_cases h1 : 0 < qpair.consumer.size
  · have hne : qpair.consumer.q ≠ [] := by
      intro hnil
      rw [hnil] at hc
      simp at hc
      omega
    cases hq : qpair.consumer.q with
    | nil => exact absurd hq hne
    | cons r rest =>
        have hred : nfs_rpc_consume_req qpair
            = (some r, { qpair with consumer :=
                { q := rest, size := qpair.consumer.size - 1 } }) := by
          unfold nfs_rpc_consume_req
          rw [if_pos h1, hq]
        rw [hred]
        refine ⟨?_, ?_, ⟨hp, ?_⟩, ?_⟩
        · simp [QPair.content, hq]
        · simp [QPair.content, hq]
        · show qpair.consumer.size - 1 = rest.length
          rw [hq] at hc
          simp at hc
          omega
        · intro habs
          simp at habs
  · have h1z : qpair.consumer.size = 0 := by omega
    have hcq : qpair.consumer.q = [] := by
      rw [h1z] at hc
      exact (List.eq_nil_of_length_eq_zero hc.symm)
    by_cases h2 : 0 < qpair.producer.size
    · have hne : qpair.producer.q ≠ [] := by
        intro hnil
        rw [hnil] at hp
        simp at hp
        omega
      cases hq : qpair.producer.q with
      | nil => exact absurd hq hne
      | cons r rest =>
          have hred : nfs_rpc_consume_req qpair
              = (some r, { producer := { q := [], size := 0 },
                           consumer := { q := rest,
                                         size := qpair.producer.size - 1 } }) := by
            unfold nfs_rpc_consume_req
            rw [if_neg h1, if_pos h2]
            simp only [spliceTail, hcq, hq, List.nil_append]
          rw [hred]
          refine ⟨?_, ?_, ⟨rfl, ?_⟩, ?_⟩
          · simp [QPair.content, hq, hcq]
          · simp [QPair.content, hq, hcq]
          · show qpair.producer.size - 1 = rest.length
            rw [hq] at hp
            simp at hp
            omega
          · intro habs
            simp at habs
    · have h2z : qpair.producer.size = 0 := by omega
      have hpq : qpair.producer.q = [] := by
        rw [h2z] at hp
        exact (List.eq_nil_of_length_eq_zero hp.symm)
      have hred : nfs_rpc_consume_req qpair = (none, qpair) := by
        unfold nfs_rpc_consume_req
        rw [if_neg h1, if_neg h2]
      rw [hred]
      exact ⟨by simp [QPair.content, hcq, hpq],
             by simp [QPair.content, hcq, hpq], ⟨hp, hc⟩, fun _ => rfl⟩

/-- n successive consumes on a well-formed pair return the first n elements
of the pair's combined content, in order, leaving a well-formed pair. -/
theorem consumeN_take : ∀ (n : Nat) (qpair : QPair), qpair.wf →
    (consumeN n qpair).1 = qpair.content.take n ∧ (consumeN n qpair).2.wf := by
  intro n
  induction n with
  | zero => intro qpair hwf; exact ⟨by simp [consumeN], hwf⟩
  | succ n ih =>
      intro qpair hwf
      obtain ⟨h1, h2, h3, h4⟩ := nfs_rpc_consume_req_content qpair hwf
      cases hres : nfs_rpc_consume_req qpair with
      | mk res qp' =>
          rw [hres] at h1 h2 h3 h4
          cases hcon : qpair.content with
          | nil =>
              rw [hcon] at h1
              simp at h1
              have hq : qp' = qpair := h4 (by simp [h1])
              simp [consumeN, hres, h1, hcon, hq]
              exact hwf
          | cons r rest =>
              rw [hcon] at h1 h2
              simp at h1 h2
              obtain ⟨hr, hrest⟩ := ih qp' h3
              rw [h2] at hr
              simp only [consumeN, hres, h1, hcon, List.take_succ_cons]
              exact ⟨by rw [hr], hrest⟩

/-- C4: nfs_rpc_consume_req pops the consumer's head without touching the
producer when the consumer is non-empty; when the consumer is empty and
the producer non-empty it splices the whole producer onto the consumer
(consumer.size := old producer.size, producer := empty) and pops the head;
when both are empty it returns NULL and changes nothing.  Successive
dequeues from one queue return requests in insertion order; with 5
requests in the producer, the first dequeue leaves consumer = 4 and
producer = 0, and the second leaves consumer = 3. -/
theorem nfs_rpc_consume_req_spec (qpair : QPair) (hwf : qpair.wf) :
    (0 < qpair.consumer.size →
       (nfs_rpc_consume_req qpair).1 = qpair.consumer.q.head?
     ∧ (nfs_rpc_consume_req qpair).2.producer = qpair.producer
     ∧ (nfs_rpc_consume_req qpair).2.consumer.q = qpair.consumer.q.tail
     ∧ (nfs_rpc_consume_req qpair).2.consumer.size = qpair.consumer.size - 1)
  ∧ (qpair.consumer.size = 0 → 0 < qpair.producer.size →
       spliceTail qpair = { producer := { q := [], size := 0 },
                            consumer := { q := qpair.producer.q,
                                          size := qpair.producer.size } }
     ∧ (nfs_rpc_consume_req qpair).1 = qpair.producer.q.head?
     ∧ (nfs_rpc_consume_req qpair).2.producer.q = []
     ∧ (nfs_rpc_consume_req qpair).2.producer.size = 0
     ∧ (nfs_rpc_consume_req qpair).2.consumer.q = qpair.producer.q.tail
     ∧ (nfs_rpc_consume_req qpair).2.consumer.size = qpair.producer.size - 1)
  ∧ (qpair.consumer.size = 0 → qpair.producer.size = 0 →
       nfs_rpc_consume_req qpair = (none, qpair))
  ∧ (∀ n, (consumeN n qpair).1 = qpair.content.take n)
  ∧ ((consumeN 1 (producerOnly 5)).2.consumer.size = 4
     ∧ (consumeN 1 (producerOnly 5)).2.producer.size = 0
     ∧ (consumeN 2 (producerOnly 5)).2.consumer.size = 3
     ∧ (consumeN 2 (producerOnly 5)).1 = [reqLow 1, reqLow 2]
     ∧ (consumeN 5 (producerOnly 5)).1
         = [reqLow 1, reqLow 2, reqLow 3, reqLow 4, reqLow 5]) := by
  obtain ⟨hp, hc⟩ := hwf
  unfold ReqQ.wf at hp hc
  refine ⟨?_, ?_, ?_, fun n => (consumeN_take n qpair ⟨hp, hc⟩).1,
          by decide, by decide, by decide, by decide, by decide⟩
  · intro h1
    have hne : qpair.consumer.q ≠ [] := by
      intro hnil
      rw [hnil] at hc
      simp at hc
      omega
    cases hq : qpair.consumer.q with
    | nil => exact absurd hq hne
    | cons r rest =>
        have hred : nfs_rpc_consume_req qpair
            = (some r, { qpair with consumer :=
                { q := rest, size := qpair.consumer.size - 1 } }) := by
          unfold nfs_rpc_consume_req
          rw [if_pos h1, hq]
        rw [hred]
        exact ⟨by simp [hq], rfl, by simp [hq], rfl⟩
  · intro h1z h2
    have hcq : qpair.consumer.q = [] := by
      rw [h1z] at hc
      exact (List.eq_nil_of_length_eq_zero hc.symm)
    have h1 : ¬ 0 < qpair.consumer.size := by omega
    have hne : qpair.producer.q ≠ [] := by
      intro hnil
      rw [hnil] at hp
      simp at hp
      omega
    cases hq : qpair.producer.q with
    | nil => exact absurd hq hne
    | cons r rest =>
        have hred : nfs_rpc_consume_req qpair
            = (some r, { producer := { q := [], size := 0 },
                         consumer := { q := rest,
                                       size := qpair.producer.size - 1 } }) := by
          unfold nfs_rpc_consume_req
          rw [if_neg h1, if_pos h2]
          simp only [spliceTail, hcq, hq, List.nil_append]
        rw [hred]
        exact ⟨by simp [spliceTail, hcq, hq], by simp [hq], rfl, rfl,
               by simp [hq], rfl⟩
  · intro h1z h2z
    unfold nfs_rpc_consume_req
    rw [if_neg (by omega), if_neg (by omega)]

/-- C4 witness: the S3 scenario on the LOW queue pair with 5 requests. -/
theorem nfs_rpc_consume_req_spec_witness :
    (consumeN 1 (producerOnly 5)).2.consumer.size = 4
  ∧ (consumeN 1 (producerOnly 5)).2.producer.size = 0
  ∧ (consumeN 2 (producerOnly 5)).2.consumer.size = 3
  ∧ (consumeN 2 (producerOnly 5)).1 = [reqLow 1, reqLow 2]
  ∧ (consumeN 5 (producerOnly 5)).1
      = [reqLow 1, reqLow 2, reqLow 3, reqLow 4, reqLow 5] :=
  (nfs_rpc_consume_req_spec (producerOnly 5) ⟨rfl, rfl⟩).2.2.2.2

end NfsDispatch

namespace NfsDispatch

/-! ## C8: request reference-count lifecycle -/

/-- C8: alloc_nfs_request starts the request at refcount 1 and takes one
reference on the transport; the success path of nfs_rpc_process_request
increments the count to exactly 2 immediately before enqueue;
free_nfs_request decrements the count, and frees the request's resources
(auth, XDR stream) and releases the transport if and only if the count
reaches 0, otherwise leaving the request intact and returning the
remaining count. -/
theorem nfs_request_refcount_lifecycle (xprt : Xprt) (rid : Nat)
    (env : ProcessEnv) (t : Nat) (st : NfsReqSt) (reqdata : RequestData) :
    ((alloc_nfs_request xprt rid).1.r_d_refs = 1
     ∧ (alloc_nfs_request xprt rid).2.xp_refs = xprt.xp_refs + 1)
  ∧ (env.authOk = true → env.gssNoDispatch = false → env.checksumOk = true →
       (nfs_rpc_process_request env t (alloc_nfs_request xprt rid).1 st).1
           = ProcessOutcome.enqueued
     ∧ (nfs_rpc_process_request env t
          (alloc_nfs_request xprt rid).1 st).2.1.r_d_refs = 2)
  ∧ (∀ n, reqdata.r_d_refs = n + 2 →
       free_nfs_request reqdata xprt
         = (n + 1, { reqdata with r_d_refs := n + 1 }, xprt))
  ∧ (reqdata.r_d_refs = 1 → reqdata.rtype = RType.NFS_REQUEST →
       (free_nfs_request reqdata xprt).1 = 0
     ∧ (free_nfs_request reqdata xprt).2.1.freed = true
     ∧ (free_nfs_request reqdata xprt).2.1.authReleased = reqdata.hasAuth
     ∧ (free_nfs_request reqdata xprt).2.1.xdrDestroyed = true
     ∧ (free_nfs_request reqdata xprt).2.2.xp_refs = xprt.xp_refs - 1) := by
  refine ⟨⟨rfl, rfl⟩, ?_, ?_, ?_⟩
  · intro h1 h2 h3
    simp [nfs_rpc_process_request, h1, h2, h3, alloc_nfs_request]
  · intro n hn
    unfold free_nfs_request
    rw [hn]
    simp
  · intro h1 h2
    unfold free_nfs_request
    rw [h1]
    simp [h2]

/-- C8 witness: the lifecycle evaluated on a concrete transport/request. -/
theorem nfs_request_refcount_lifecycle_witness :
    (alloc_nfs_request xprt0 11).1.r_d_refs = 1
  ∧ (nfs_rpc_process_request env0 2
       (alloc_nfs_request xprt0 11).1 initialReqSt).2.1.r_d_refs = 2
  ∧ free_nfs_request req2 xprt0 = (1, { req2 with r_d_refs := 1 }, xprt0)
  ∧ (free_nfs_request (reqLow 1) xprt0).1 = 0 := by
  have h := nfs_request_refcount_lifecycle xprt0 11 env0 2 initialReqSt req2
  have h4 := nfs_request_refcount_lifecycle xprt0 11 env0 2 initialReqSt
    (reqLow 1)
  exact ⟨h.1.1, (h.2.1 rfl rfl rfl).2, h.2.2.1 0 rfl, (h4.2.2.2 rfl rfl).1⟩

end NfsDispatch

namespace NfsDispatch

/-! ## C9: bind-failure fatality -/

theorem bindLoopV4_ok (cfg : CoreConfig) (bindOk : Proto → SockKind → Bool) :
    ∀ l : List Proto,
      (bindLoopV4 cfg bindOk l).2
        = l.all (fun p => !(nfs_protocol_enabled cfg p)
            || (bindOk p SockKind.udp && bindOk p SockKind.tcp)) := by
  intro l
  induction l with
  | nil => rfl
  | cons p ps ih =>
      by_cases he : nfs_protocol_enabled cfg p = true
      · by_cases hu : bindOk p SockKind.udp = true
        · by_cases ht : bindOk p SockKind.tcp = true
          · simp [bindLoopV4, he, hu, ht, ih]
          · simp [bindLoopV4, he, hu, ht]
        · simp [bindLoopV4, he, hu]
      · simp [bindLoopV4, he, ih]

theorem bindLoopV6_ok (cfg : CoreConfig) (bindOk : Proto → SockKind → Bool) :
    ∀ l : List Proto,
      (bindLoopV6 cfg bindOk l).2
        = l.all (fun p => !(nfs_protocol_enabled cfg p)
            || (bindOk p SockKind.udp && bindOk p SockKind.tcp)) := by
  intro l
  induction l with
  | nil => rfl
  | cons p ps ih =>
      by_cases he : nfs_protocol_enabled cfg p = true
      · by_cases hu : bindOk p SockKind.udp = true
        · by_cases ht : bindOk p SockKind.tcp = true
          · simp [bindLoopV6, he, hu, ht, ih]
          · simp [bindLoopV6, he, hu, ht]
        · simp [bindLoopV6, he, hu]
      · simp [bindLoopV6, he, ih]

theorem bind_all_iff (cfg : CoreConfig) (bindOk : Proto → SockKind → Bool)
    (l : List Proto) :
    (l.all (fun p => !(nfs_protocol_enabled cfg p)
        || (bindOk p SockKind.udp && bindOk p SockKind.tcp)) = false)
  ↔ ∃ p, p ∈ l ∧ nfs_protocol_enabled cfg p = true
      ∧ (bindOk p SockKind.udp = false ∨ bindOk p SockKind.tcp = false) := by
  rw [List.all_eq_false]
  constructor
  · rintro ⟨p, hp, hf⟩
    refine ⟨p, hp, ?_⟩
    revert hf
    cases he : nfs_protocol_enabled cfg p <;>
      cases hu : bindOk p SockKind.udp <;>
      cases ht : bindOk p SockKind.tcp <;> simp
  · rintro ⟨p, hp, he, hut⟩
    refine ⟨p, hp, ?_⟩
    rcases hut with h | h <;> simp [he, h]

theorem Bind_sockets_fatal_cases (cfg : CoreConfig) (v6d vsock : Bool)
    (bindOk : Proto → SockKind → Bool) (vb : Bool) :
    (Bind_sockets cfg v6d vsock bindOk vb).2 ≠ none ↔
      (if v6d then bindLoopV4 cfg bindOk protoList
       else bindLoopV6 cfg bindOk protoList).2 = false := by
  unfold Bind_sockets
  cases hbl : (if v6d then bindLoopV4 cfg bindOk protoList
               else bindLoopV6 cfg bindOk protoList) with
  | mk rs okb => cases okb <;> cases vsock <;> simp

/-- C9: during Bind_sockets, a bind failure on any enabled protocol's
IPv4/IPv6 UDP or TCP socket is fatal (LogFatal with a reason), and only
such failures are; a vsock bind failure alone is non-fatal: startup
continues. -/
theorem Bind_sockets_fatality (cfg : CoreConfig) (v6disabled vsock : Bool)
    (bindOk : Proto → SockKind → Bool) (vsockBindOk : Bool) :
    ((Bind_sockets cfg v6disabled vsock bindOk vsockBindOk).2 ≠ none
       ↔ ∃ p, p ∈ protoList ∧ nfs_protocol_enabled cfg p = true
           ∧ (bindOk p SockKind.udp = false ∨ bindOk p SockKind.tcp = false))
  ∧ ((∀ p, nfs_protocol_enabled cfg p = true →
        bindOk p SockKind.udp = true ∧ bindOk p SockKind.tcp = true) →
      (Bind_sockets cfg v6disabled true bindOk false).2 = none) := by
  constructor
  · rw [Bind_sockets_fatal_cases]
    cases v6disabled with
    | false =>
        rw [if_neg (by simp), bindLoopV6_ok]
        exact bind_all_iff cfg bindOk protoList
    | true =>
        rw [if_pos rfl, bindLoopV4_ok]
        exact bind_all_iff cfg bindOk protoList
  · intro hall
    have hallb : protoList.all (fun p => !(nfs_protocol_enabled cfg p)
        || (bindOk p SockKind.udp && bindOk p SockKind.tcp)) = true := by
      rw [List.all_eq_true]
      intro p _
      cases he : nfs_protocol_enabled cfg p
      · simp
      · have h2 := hall p he
        simp [h2.1, h2.2]
    by_contra hne
    have hfal := (Bind_sockets_fatal_cases cfg v6disabled true bindOk
      false).mp hne
    cases v6disabled with
    | false =>
        rw [if_neg (by simp), bindLoopV6_ok, hallb] at hfal
        exact absurd hfal (by simp)
    | true =>
        rw [if_pos rfl, bindLoopV4_ok, hallb] at hfal
        exact absurd hfal (by simp)

/-- C9 witness: vsock bind failing with all inet binds succeeding is
non-fatal. -/
theorem Bind_sockets_fatality_witness :
    (Bind_sockets cfg0 false true (fun _ _ => true) false).2 = none :=
  (Bind_sockets_fatality cfg0 false true (fun _ _ => true) false).2
    (fun _ _ => ⟨rfl, rfl⟩)

end NfsDispatch

namespace NfsDispatch

/-! ## C6: IPv6 fallback -/

theorem Allocate_sockets_V4_props (oracle : Nat → SockRes) (st : AllocSt) :
    (Allocate_sockets_V4 oracle st).1.v6disabled = st.v6disabled
  ∧ (Allocate_sockets_V4 oracle st).1.fatal = st.fatal
  ∧ ∃ added, (Allocate_sockets_V4 oracle st).1.calls = st.calls ++ added
       ∧ ∀ c ∈ added, c.family = AddrFamily.AF_INET := by
  by_cases h1 : oracle st.calls.length = SockRes.ok
  · by_cases h2 : oracle (st.calls.length + 1) = SockRes.ok
    · refine ⟨?_, ?_, ⟨[{ family := .AF_INET, kind := .udp },
                        { family := .AF_INET, kind := .tcp }], ?_, ?_⟩⟩ <;>
        simp [Allocate_sockets_V4, sockCall, h1, h2]
    · refine ⟨?_, ?_, ⟨[{ family := .AF_INET, kind := .udp },
                        { family := .AF_INET, kind := .tcp }], ?_, ?_⟩⟩ <;>
        simp [Allocate_sockets_V4, sockCall, h1, h2]
  · refine ⟨?_, ?_, ⟨[{ family := .AF_INET, kind := .udp }], ?_, ?_⟩⟩ <;>
      simp [Allocate_sockets_V4, sockCall, h1]

theorem tryV4_props (oracle : Nat → SockRes) (st : AllocSt) :
    (tryV4 oracle st).v6disabled = st.v6disabled
  ∧ ∃ added, (tryV4 oracle st).calls = st.calls ++ added
      ∧ ∀ c ∈ added, c.family = AddrFamily.AF_INET := by
  obtain ⟨hv, _, added, hc, hfam⟩ := Allocate_sockets_V4_props oracle st
  have hres : tryV4 oracle st
      = (if (Allocate_sockets_V4 oracle st).2
         then (Allocate_sockets_V4 oracle st).1
         else { (Allocate_sockets_V4 oracle st).1 with
                fatal := some "Error allocating V4 socket" }) := by
    unfold tryV4
    rfl
  rw [hres]
  by_cases hok : (Allocate_sockets_V4 oracle st).2 = true
  · rw [if_pos hok]
    exact ⟨hv, added, hc, hfam⟩
  · rw [if_neg hok]
    exact ⟨hv, added, hc, hfam⟩

theorem allocOneProto_v6true (oracle : Nat → SockRes) (st : AllocSt)
    (h : st.v6disabled = true) :
    (allocOneProto oracle st).v6disabled = true
  ∧ ∃ added, (allocOneProto oracle st).calls = st.calls ++ added
      ∧ ∀ c ∈ added, c.family = AddrFamily.AF_INET := by
  unfold allocOneProto
  rw [if_pos h]
  obtain ⟨hv, added, hc, hfam⟩ := tryV4_props oracle st
  exact ⟨by rw [hv, h], added, hc, hfam⟩

theorem allocOneProto_firstAF (oracle : Nat → SockRes) (st : AllocSt)
    (h : st.v6disabled = false)
    (hAF : oracle st.calls.length = SockRes.errAFNoSupport) :
    (allocOneProto oracle st).v6disabled = true
  ∧ ∃ added, (allocOneProto oracle st).calls
        = st.calls ++ ({ family := AddrFamily.AF_INET6,
                         kind := SockKind.udp } :: added)
      ∧ ∀ c ∈ added, c.family = AddrFamily.AF_INET := by
  have hred : allocOneProto oracle st
      = tryV4 oracle
          { st with
            calls := st.calls ++ [{ family := .AF_INET6, kind := .udp }],
            v6disabled := true } := by
    unfold allocOneProto sockCall
    rw [if_neg (by simp [h]), hAF]
    simp
  rw [hred]
  obtain ⟨hv, added, hc, hfam⟩ := tryV4_props oracle
    { st with calls := st.calls ++ [{ family := .AF_INET6, kind := .udp }],
              v6disabled := true }
  refine ⟨by rw [hv], added, ?_, hfam⟩
  rw [hc]
  simp

theorem allocFold_v6true (oracle : Nat → SockRes) (cfg : CoreConfig) :
    ∀ (l : List Proto) (st : AllocSt), st.v6disabled = true →
      (l.foldl (allocStep oracle cfg) st).v6disabled = true
    ∧ ∃ added, (l.foldl (allocStep oracle cfg) st).calls = st.calls ++ added
        ∧ ∀ c ∈ added, c.family = AddrFamily.AF_INET := by
  intro l
  induction l with
  | nil => intro st h; exact ⟨h, [], by simp, by simp⟩
  | cons p ps ih =>
      intro st h
      by_cases hfat : st.fatal.isSome = true
      · have hstep : allocStep oracle cfg st p = st := by
          unfold allocStep
          rw [if_pos hfat]
        rw [List.foldl_cons, hstep]
        exact ih st h
      · by_cases he : nfs_protocol_enabled cfg p = true
        · have hstep : allocStep oracle cfg st p = allocOneProto oracle st := by
            unfold allocStep
            rw [if_neg hfat, if_pos he]
          rw [List.foldl_cons, hstep]
          obtain ⟨hv1, a1, hc1, hf1⟩ := allocOneProto_v6true oracle st h
          obtain ⟨hv2, a2, hc2, hf2⟩ := ih (allocOneProto oracle st) hv1
          refine ⟨hv2, a1 ++ a2, ?_, ?_⟩
          · rw [hc2, hc1, List.append_assoc]
          · intro c hcm
            rcases List.mem_append.mp hcm with hm | hm
            exacts [hf1 c hm, hf2 c hm]
        · have hstep : allocStep oracle cfg st p = st := by
            unfold allocStep
            rw [if_neg hfat, if_neg he]
          rw [List.foldl_cons, hstep]
          exact ih st h

theorem bindLoopV4_families (cfg : CoreConfig)
    (bindOk : Proto → SockKind → Bool) :
    ∀ l : List Proto, ∀ rec ∈ (bindLoopV4 cfg bindOk l).1,
      rec.family = AddrFamily.AF_INET ∧ rec.addr = BindAddr.INADDR_ANY := by
  intro l
  induction l with
  | nil => intro rec hm; simp [bindLoopV4] at hm
  | cons p ps ih =>
      intro rec hm
      by_cases he : nfs_protocol_enabled cfg p = true
      · by_cases hu : bindOk p SockKind.udp = true
        · by_cases ht : bindOk p SockKind.tcp = true
          · simp only [bindLoopV4, he, hu, ht, if_true] at hm
            simp at hm
            rcases hm with hm | hm | hm
            · simp [hm]
            · simp [hm]
            · exact ih rec hm
          · simp [bindLoopV4, he, hu, ht] at hm
            rcases hm with hm | hm <;> simp [hm]
        · simp [bindLoopV4, he, hu] at hm
          simp [hm]
      · simp only [bindLoopV4, he] at hm
        simp at hm
        exact ih rec hm

theorem bindLoopV6_families (cfg : CoreConfig)
    (bindOk : Proto → SockKind → Bool) :
    ∀ l : List Proto, ∀ rec ∈ (bindLoopV6 cfg bindOk l).1,
      rec.family = AddrFamily.AF_INET6 ∧ rec.addr = BindAddr.in6addr_any := by
  intro l
  induction l with
  | nil => intro rec hm; simp [bindLoopV6] at hm
  | cons p ps ih =>
      intro rec hm
      by_cases he : nfs_protocol_enabled cfg p = true
      · by_cases hu : bindOk p SockKind.udp = true
        · by_cases ht : bindOk p SockKind.tcp = true
          · simp only [bindLoopV6, he, hu, ht, if_true] at hm
            simp at hm
            rcases hm with hm | hm | hm
            · simp [hm]
            · simp [hm]
            · exact ih rec hm
          · simp [bindLoopV6, he, hu, ht] at hm
            rcases hm with hm | hm <;> simp [hm]
        · simp [bindLoopV6, he, hu] at hm
          simp [hm]
      · simp only [bindLoopV6, he] at hm
        simp at hm
        exact ih rec hm

theorem Bind_sockets_recs (cfg : CoreConfig) (v6d : Bool)
    (bindOk : Proto → SockKind → Bool) (vb : Bool) :
    (Bind_sockets cfg v6d false bindOk vb).1
      = (if v6d then bindLoopV4 cfg bindOk protoList
         else bindLoopV6 cfg bindOk protoList).1 := by
  unfold Bind_sockets
  cases hbl : (if v6d then bindLoopV4 cfg bindOk protoList
               else bindLoopV6 cfg bindOk protoList) with
  | mk rs okb => cases okb <;> simp

/-- C6: if Allocate_sockets' very first socket(2) call — the AF_INET6 UDP
socket for the first enabled protocol — fails with EAFNOSUPPORT, the
process-wide v6disabled flag becomes true and every subsequent socket
allocation uses AF_INET; Bind_sockets under that flag binds only AF_INET
(INADDR_ANY) addresses, while with v6disabled still false it binds only
AF_INET6 (in6addr_any) addresses (vsock disabled in both cases). -/
theorem v6_fallback (oracle : Nat → SockRes) (cfg : CoreConfig)
    (bindOk : Proto → SockKind → Bool)
    (h0 : oracle 0 = SockRes.errAFNoSupport) :
    (Allocate_sockets oracle cfg false).calls.head?
        = some { family := AddrFamily.AF_INET6, kind := SockKind.udp }
  ∧ (Allocate_sockets oracle cfg false).v6disabled = true
  ∧ (∀ c ∈ (Allocate_sockets oracle cfg false).calls.drop 1,
        c.family = AddrFamily.AF_INET)
  ∧ (∀ rec ∈ (Bind_sockets cfg (Allocate_sockets oracle cfg false).v6disabled
        false bindOk true).1,
        rec.family = AddrFamily.AF_INET ∧ rec.addr = BindAddr.INADDR_ANY)
  ∧ (∀ rec ∈ (Bind_sockets cfg false false bindOk true).1,
        rec.family = AddrFamily.AF_INET6 ∧ rec.addr = BindAddr.in6addr_any) := by
  have hA : Allocate_sockets oracle cfg false
      = protoList.foldl (allocStep oracle cfg)
          { v6disabled := false, calls := [], fatal := none } := by
    unfold Allocate_sockets
    simp
  have hstep : allocStep oracle cfg
        { v6disabled := false, calls := [], fatal := none } Proto.P_NFS
      = allocOneProto oracle { v6disabled := false, calls := [], fatal := none } := by
    unfold allocStep
    simp [nfs_protocol_enabled]
  obtain ⟨hv1, a1, hc1, hf1⟩ := allocOneProto_firstAF oracle
    { v6disabled := false, calls := [], fatal := none } rfl (by simpa using h0)
  obtain ⟨hv2, a2, hc2, hf2⟩ := allocFold_v6true oracle cfg
    [Proto.P_MNT, Proto.P_NLM, Proto.P_RQUOTA, Proto.P_NFS_VSOCK,
     Proto.P_NFS_RDMA]
    (allocOneProto oracle { v6disabled := false, calls := [], fatal := none })
    hv1
  have hfold : protoList.foldl (allocStep oracle cfg)
        { v6disabled := false, calls := [], fatal := none }
      = [Proto.P_MNT, Proto.P_NLM, Proto.P_RQUOTA, Proto.P_NFS_VSOCK,
         Proto.P_NFS_RDMA].foldl (allocStep oracle cfg)
          (allocOneProto oracle
            { v6disabled := false, calls := [], fatal := none }) := by
    simp only [protoList, List.foldl_cons]
    rw [hstep]
  have hcalls : (Allocate_sockets oracle cfg false).calls
      = { family := AddrFamily.AF_INET6, kind := SockKind.udp }
          :: (a1 ++ a2) := by
    rw [hA, hfold, hc2, hc1]
    simp
  have hv : (Allocate_sockets oracle cfg false).v6disabled = true := by
    rw [hA, hfold]
    exact hv2
  refine ⟨?_, hv, ?_, ?_, ?_⟩
  · rw [hcalls]
    rfl
  · rw [hcalls]
    intro c hcm
    simp at hcm
    rcases hcm with hm | hm
    exacts [hf1 c hm, hf2 c hm]
  · rw [hv, Bind_sockets_recs, if_pos rfl]
    exact bindLoopV4_families cfg bindOk protoList
  · rw [Bind_sockets_recs, if_neg (by simp)]
    exact bindLoopV6_families cfg bindOk protoList

/-- C6 witness: the fallback on a concrete oracle whose first call fails
with EAFNOSUPPORT. -/
theorem v6_fallback_witness :
    (Allocate_sockets oracleAF cfg0 false).v6disabled = true
  ∧ (Allocate_sockets oracleAF cfg0 false).calls.head?
      = some { family := AddrFamily.AF_INET6, kind := SockKind.udp } := by
  have h := v6_fallback oracleAF cfg0 (fun _ _ => true) rfl
  exact ⟨h.2.1, h.1⟩

end NfsDispatch

namespace NfsDispatch

/-! ## C2: conservation -/

theorem totalSize_eq_length (st : NfsReqSt) (hwf : st.wfQ) :
    st.totalSize = st.allContent.length := by
  unfold NfsReqSt.wfQ QPair.wf ReqQ.wf at hwf
  obtain ⟨⟨h1, h2⟩, ⟨h3, h4⟩, ⟨h5, h6⟩, ⟨h7, h8⟩⟩ := hwf
  simp only [NfsReqSt.totalSize, NfsReqSt.allContent, QPair.content,
             List.length_append, h1, h2, h3, h4, h5, h6, h7, h8]
  omega

theorem consumeAt_props (idx : QIdx) (st : NfsReqSt) (hwf : st.wfQ) :
    (consumeAt idx st).2.wfQ
  ∧ (consumeAt idx st).2.enqueuedReqs = st.enqueuedReqs
  ∧ (consumeAt idx st).2.dequeuedReqs = st.dequeuedReqs
  ∧ ((consumeAt idx st).1 = none → (consumeAt idx st).2 = st)
  ∧ (∀ r, (consumeAt idx st).1 = some r →
      (↑st.allContent : Multiset RequestData)
        = ↑(consumeAt idx st).2.allContent + {r}) := by
  unfold NfsReqSt.wfQ at hwf
  obtain ⟨hm, hc, hl, hh⟩ := hwf
  cases idx with
  | REQ_Q_MOUNT =>
      obtain ⟨g1, g2, g3, g4⟩ := nfs_rpc_consume_req_content st.qMount hm
      refine ⟨⟨g3, hc, hl, hh⟩, rfl, rfl, ?_, ?_⟩
      · intro h
        show st.setQpair QIdx.REQ_Q_MOUNT (nfs_rpc_consume_req st.qMount).2 = st
        rw [g4 h]
        rfl
      · intro r h
        have h1 : st.qMount.content.head? = some r := by rw [← g1]; exact h
        show (↑(st.qMount.content ++ st.qCall.content ++ st.qLow.content
                ++ st.qHigh.content) : Multiset RequestData)
          = ↑((nfs_rpc_consume_req st.qMount).2.content ++ st.qCall.content
              ++ st.qLow.content ++ st.qHigh.content) + {r}
        cases hq : st.qMount.content with
        | nil => rw [hq] at h1; simp at h1
        | cons a l =>
            rw [hq] at h1 g2
            simp only [List.head?_cons, Option.some.injEq] at h1
            simp only [List.tail_cons] at g2
            subst h1
            rw [g2]
            simp only [← Multiset.coe_add, ← Multiset.cons_coe,
                       ← Multiset.singleton_add, Multiset.coe_nil,
                       List.append_assoc, List.cons_append]
            abel
  | REQ_Q_CALL =>
      obtain ⟨g1, g2, g3, g4⟩ := nfs_rpc_consume_req_content st.qCall hc
      refine ⟨⟨hm, g3, hl, hh⟩, rfl, rfl, ?_, ?_⟩
      · intro h
        show st.setQpair QIdx.REQ_Q_CALL (nfs_rpc_consume_req st.qCall).2 = st
        rw [g4 h]
        rfl
      · intro r h
        have h1 : st.qCall.content.head? = some r := by rw [← g1]; exact h
        show (↑(st.qMount.content ++ st.qCall.content ++ st.qLow.content
                ++ st.qHigh.content) : Multiset RequestData)
          = ↑(st.qMount.content ++ (nfs_rpc_consume_req st.qCall).2.content
              ++ st.qLow.content ++ st.qHigh.content) + {r}
        cases hq : st.qCall.content with
        | nil => rw [hq] at h1; simp at h1
        | cons a l =>
            rw [hq] at h1 g2
            simp only [List.head?_cons, Option.some.injEq] at h1
            simp only [List.tail_cons] at g2
            subst h1
            rw [g2]
            simp only [← Multiset.coe_add, ← Multiset.cons_coe,
                       ← Multiset.singleton_add, Multiset.coe_nil,
                       List.append_assoc, List.cons_append]
            abel
  | REQ_Q_LOW_LATENCY =>
      obtain ⟨g1, g2, g3, g4⟩ := nfs_rpc_consume_req_content st.qLow hl
      refine ⟨⟨hm, hc, g3, hh⟩, rfl, rfl, ?_, ?_⟩
      · intro h
        show st.setQpair QIdx.REQ_Q_LOW_LATENCY
            (nfs_rpc_consume_req st.qLow).2 = st
        rw [g4 h]
        rfl
      · intro r h
        have h1 : st.qLow.content.head? = some r := by rw [← g1]; exact h
        show (↑(st.qMount.content ++ st.qCall.content ++ st.qLow.content
                ++ st.qHigh.content) : Multiset RequestData)
          = ↑(st.qMount.content ++ st.qCall.content
              ++ (nfs_rpc_consume_req st.qLow).2.content
              ++ st.qHigh.content) + {r}
        cases hq : st.qLow.content with
        | nil => rw [hq] at h1; simp at h1
        | cons a l =>
            rw [hq] at h1 g2
            simp only [List.head?_cons, Option.some.injEq] at h1
            simp only [List.tail_cons] at g2
            subst h1
            rw [g2]
            simp only [← Multiset.coe_add, ← Multiset.cons_coe,
                       ← Multiset.singleton_add, Multiset.coe_nil,
                       List.append_assoc, List.cons_append]
            abel
  | REQ_Q_HIGH_LATENCY =>
      obtain ⟨g1, g2, g3, g4⟩ := nfs_rpc_consume_req_content st.qHigh hh
      refine ⟨⟨hm, hc, hl, g3⟩, rfl, rfl, ?_, ?_⟩
      · intro h
        show st.setQpair QIdx.REQ_Q_HIGH_LATENCY
            (nfs_rpc_consume_req st.qHigh).2 = st
        rw [g4 h]
        rfl
      · intro r h
        have h1 : st.qHigh.content.head? = some r := by rw [← g1]; exact h
        show (↑(st.qMount.content ++ st.qCall.content ++ st.qLow.content
                ++ st.qHigh.content) : Multiset RequestData)
          = ↑(st.qMount.content ++ st.qCall.content ++ st.qLow.content
              ++ (nfs_rpc_consume_req st.qHigh).2.content) + {r}
        cases hq : st.qHigh.content with
        | nil => rw [hq] at h1; simp at h1
        | cons a l =>
            rw [hq] at h1 g2
            simp only [List.head?_cons, Option.some.injEq] at h1
            simp only [List.tail_cons] at g2
            subst h1
            rw [g2]
            simp only [← Multiset.coe_add, ← Multiset.cons_coe,
                       ← Multiset.singleton_add, Multiset.coe_nil,
                       List.append_assoc, List.cons_append]
            abel

end NfsDispatch

namespace NfsDispatch

theorem dequeueScanFrom_props : ∀ (n slot : Nat) (st : NfsReqSt), st.wfQ →
    (dequeueScanFrom st slot n).2.wfQ
  ∧ (dequeueScanFrom st slot n).2.enqueuedReqs = st.enqueuedReqs
  ∧ ((dequeueScanFrom st slot n).1 = none → (dequeueScanFrom st slot n).2 = st)
  ∧ (∀ r, (dequeueScanFrom st slot n).1 = some r →
       (↑st.allContent : Multiset RequestData)
         = ↑(dequeueScanFrom st slot n).2.allContent + {r}
       ∧ (dequeueScanFrom st slot n).2.dequeuedReqs = st.dequeuedReqs + 1) := by
  intro n
  induction n with
  | zero =>
      intro slot st hwf
      exact ⟨hwf, rfl, fun _ => rfl,
             fun r h => by simp [dequeueScanFrom] at h⟩
  | succ n ih =>
      intro slot st hwf
      obtain ⟨w1, w2, w3, w4, w5⟩ := consumeAt_props (slotQIdx slot) st hwf
      cases hca : consumeAt (slotQIdx slot) st with
      | mk res st1 =>
          rw [hca] at w1 w2 w3 w4 w5
          cases res with
          | some r =>
              have hred : dequeueScanFrom st slot (n + 1)
                  = (some r, { st1 with
                      dequeuedReqs := st1.dequeuedReqs + 1 }) := by
                simp only [dequeueScanFrom, hca]
              rw [hred]
              refine ⟨w1, w2, fun h => by simp at h, ?_⟩
              intro r' h
              simp only [Option.some.injEq] at h
              subst h
              exact ⟨w5 r rfl, by rw [w3]⟩
          | none =>
              have hred : dequeueScanFrom st slot (n + 1)
                  = dequeueScanFrom st1 (slot + 1) n := by
                simp only [dequeueScanFrom, hca]
              have hst1 : st1 = st := w4 rfl
              subst hst1
              rw [hred]
              exact ih (slot + 1) st1 hwf

theorem enqueue_props (t : Nat) (reqdata : RequestData) (st : NfsReqSt)
    (hwf : st.wfQ) :
    (nfs_rpc_enqueue_req t reqdata st).1.wfQ
  ∧ (nfs_rpc_enqueue_req t reqdata st).1.dequeuedReqs = st.dequeuedReqs
  ∧ (∀ idx, classifyReq reqdata = some idx →
       (nfs_rpc_enqueue_req t reqdata st).1.enqueuedReqs = st.enqueuedReqs + 1
     ∧ (↑(nfs_rpc_enqueue_req t reqdata st).1.allContent : Multiset RequestData)
         = ↑st.allContent + {stampReq t reqdata}) := by
  unfold NfsReqSt.wfQ QPair.wf ReqQ.wf at hwf
  obtain ⟨⟨h1, h2⟩, ⟨h3, h4⟩, ⟨h5, h6⟩, ⟨h7, h8⟩⟩ := hwf
  cases hcr : classifyReq reqdata with
  | none =>
      have hred : nfs_rpc_enqueue_req t reqdata st = (st, none) := by
        simp [nfs_rpc_enqueue_req, hcr]
      rw [hred]
      exact ⟨⟨⟨h1, h2⟩, ⟨h3, h4⟩, ⟨h5, h6⟩, ⟨h7, h8⟩⟩, rfl,
             fun idx h => absurd h (by simp)⟩
  | some jdx =>
      have hred : nfs_rpc_enqueue_req t reqdata st
          = waiterHandoff (enqueueCore t reqdata st jdx) := by
        simp [nfs_rpc_enqueue_req, hcr]
      obtain ⟨q1, q2, q3, q4, q5, q6⟩ :=
        waiterHandoff_queues (enqueueCore t reqdata st jdx)
      have hACs : (waiterHandoff (enqueueCore t reqdata st jdx)).1.allContent
          = (enqueueCore t reqdata st jdx).allContent := by
        unfold NfsReqSt.allContent
        rw [q1, q2, q3, q4]
      have hwfc : (enqueueCore t reqdata st jdx).wfQ := by
        cases jdx with
        | REQ_Q_MOUNT =>
            refine ⟨⟨?_, h2⟩, ⟨h3, h4⟩, ⟨h5, h6⟩, ⟨h7, h8⟩⟩
            show st.qMount.producer.size + 1
                = (st.qMount.producer.q ++ [stampReq t reqdata]).length
            simp [h1]
        | REQ_Q_CALL =>
            refine ⟨⟨h1, h2⟩, ⟨?_, h4⟩, ⟨h5, h6⟩, ⟨h7, h8⟩⟩
            show st.qCall.producer.size + 1
                = (st.qCall.producer.q ++ [stampReq t reqdata]).length
            simp [h3]
        | REQ_Q_LOW_LATENCY =>
            refine ⟨⟨h1, h2⟩, ⟨h3, h4⟩, ⟨?_, h6⟩, ⟨h7, h8⟩⟩
            show st.qLow.producer.size + 1
                = (st.qLow.producer.q ++ [stampReq t reqdata]).length
            simp [h5]
        | REQ_Q_HIGH_LATENCY =>
            refine ⟨⟨h1, h2⟩, ⟨h3, h4⟩, ⟨h5, h6⟩, ⟨?_, h8⟩⟩
            show st.qHigh.producer.size + 1
                = (st.qHigh.producer.q ++ [stampReq t reqdata]).length
            simp [h7]
      have hmul : (↑(enqueueCore t reqdata st jdx).allContent
            : Multiset RequestData)
          = ↑st.allContent + {stampReq t reqdata} := by
        cases jdx with
        | REQ_Q_MOUNT =>
            show (↑((st.qMount.consumer.q
                    ++ (st.qMount.producer.q ++ [stampReq t reqdata]))
                  ++ st.qCall.content ++ st.qLow.content ++ st.qHigh.content)
                : Multiset RequestData)
              = ↑((st.qMount.consumer.q ++ st.qMount.producer.q)
                  ++ st.qCall.content ++ st.qLow.content ++ st.qHigh.content)
                + {stampReq t reqdata}
            simp only [← Multiset.coe_add, ← Multiset.cons_coe,
                       ← Multiset.singleton_add, Multiset.coe_nil,
                       List.append_assoc, List.cons_append]
            abel
        | REQ_Q_CALL =>
            show (↑(st.qMount.content
                  ++ (st.qCall.consumer.q
                      ++ (st.qCall.producer.q ++ [stampReq t reqdata]))
                  ++ st.qLow.content ++ st.qHigh.content)
                : Multiset RequestData)
              = ↑(st.qMount.content
                  ++ (st.qCall.consumer.q ++ st.qCall.producer.q)
                  ++ st.qLow.content ++ st.qHigh.content)
                + {stampReq t reqdata}
            simp only [← Multiset.coe_add, ← Multiset.cons_coe,
                       ← Multiset.singleton_add, Multiset.coe_nil,
                       List.append_assoc, List.cons_append]
            abel
        | REQ_Q_LOW_LATENCY =>
            show (↑(st.qMount.content ++ st.qCall.content
                  ++ (st.qLow.consumer.q
                      ++ (st.qLow.producer.q ++ [stampReq t reqdata]))
                  ++ st.qHigh.content)
                : Multiset RequestData)
              = ↑(st.qMount.content ++ st.qCall.content
                  ++ (st.qLow.consumer.q ++ st.qLow.producer.q)
                  ++ st.qHigh.content)
                + {stampReq t reqdata}
            simp only [← Multiset.coe_add, ← Multiset.cons_coe,
                       ← Multiset.singleton_add, Multiset.coe_nil,
                       List.append_assoc, List.cons_append]
            abel
        | REQ_Q_HIGH_LATENCY =>
            show (↑(st.qMount.content ++ st.qCall.content ++ st.qLow.content
                  ++ (st.qHigh.consumer.q
                      ++ (st.qHigh.producer.q ++ [stampReq t reqdata])))
                : Multiset RequestData)
              = ↑(st.qMount.content ++ st.qCall.content ++ st.qLow.content
                  ++ (st.qHigh.consumer.q ++ st.qHigh.producer.q))
                + {stampReq t reqdata}
            simp only [← Multiset.coe_add, ← Multiset.cons_coe,
                       ← Multiset.singleton_add, Multiset.coe_nil,
                       List.append_assoc, List.cons_append]
            abel
      rw [hred]
      refine ⟨?_, ?_, ?_⟩
      · unfold NfsReqSt.wfQ at hwfc ⊢
        rw [q1, q2, q3, q4]
        exact hwfc
      · rw [q6]
        exact enqueueCore_dequeued t reqdata st jdx
      · intro idx h
        refine ⟨?_, ?_⟩
        · rw [q5]
          exact enqueueCore_enqueued t reqdata st jdx
        · rw [hACs]
          exact hmul

end NfsDispatch

namespace NfsDispatch

theorem runOps_conserve : ∀ (ops : List DispatchOp) (st : NfsReqSt), st.wfQ →
    (runOps st ops).1.wfQ
  ∧ (runOps st ops).1.enqueuedReqs
      = st.enqueuedReqs + (acceptedOf ops).length
  ∧ (runOps st ops).1.dequeuedReqs
      = st.dequeuedReqs + (runOps st ops).2.length
  ∧ (↑st.allContent + ↑(acceptedOf ops) : Multiset RequestData)
      = ↑(runOps st ops).2 + ↑(runOps st ops).1.allContent := by
  intro ops
  induction ops with
  | nil =>
      intro st h
      refine ⟨h, by simp [runOps, acceptedOf], by simp [runOps], ?_⟩
      simp [runOps, acceptedOf]
  | cons op ops ih =>
      intro st hwf
      cases op with
      | enq t r =>
          have hp := enqueue_props t r st hwf
          have hrun : runOps st (.enq t r :: ops)
              = runOps (nfs_rpc_enqueue_req t r st).1 ops := by
            simp only [runOps]
          obtain ⟨i1, i2, i3, i4⟩ := ih (nfs_rpc_enqueue_req t r st).1 hp.1
          cases hcr : classifyReq r with
          | none =>
              have hst : (nfs_rpc_enqueue_req t r st).1 = st := by
                simp [nfs_rpc_enqueue_req, hcr]
              have hacc : acceptedOf (.enq t r :: ops) = acceptedOf ops := by
                simp [acceptedOf, hcr]
              rw [hrun, hacc, hst] at *
              exact ih st hwf
          | some idx =>
              have hsome := hp.2.2 idx hcr
              have hacc : acceptedOf (.enq t r :: ops)
                  = stampReq t r :: acceptedOf ops := by
                simp [acceptedOf, hcr]
              rw [hrun, hacc]
              refine ⟨i1, ?_, ?_, ?_⟩
              · rw [i2, hsome.1]
                simp [List.length_cons]
                omega
              · rw [i3, hp.2.1]
              · rw [← i4, hsome.2]
                simp only [← Multiset.coe_add, ← Multiset.cons_coe,
                           ← Multiset.singleton_add, Multiset.coe_nil,
                           List.append_assoc, List.cons_append]
                abel
      | deq slot =>
          obtain ⟨s1, s2, s3, s4⟩ := dequeueScanFrom_props 4 (slot % 4) st hwf
          have hacc : acceptedOf (.deq slot :: ops) = acceptedOf ops := by
            simp [acceptedOf]
          cases hscan : nfs_rpc_dequeue_scan slot st with
          | mk res st1 =>
              have hsc' : dequeueScanFrom st (slot % 4) 4 = (res, st1) := hscan
              rw [hsc'] at s1 s2 s3 s4
              have hrun : runOps st (.deq slot :: ops)
                  = ((runOps st1 ops).1, res.toList ++ (runOps st1 ops).2) := by
                simp only [runOps, hscan]
              cases res with
              | none =>
                  have hst : st1 = st := s3 rfl
                  subst hst
                  obtain ⟨i1, i2, i3, i4⟩ := ih st1 s1
                  rw [hrun, hacc]
                  refine ⟨i1, i2, ?_, ?_⟩
                  · rw [i3]
                    simp [Option.toList]
                  · simpa [Option.toList] using i4
              | some r =>
                  obtain ⟨smul, sdeq⟩ := s4 r rfl
                  obtain ⟨i1, i2, i3, i4⟩ := ih st1 s1
                  rw [hrun, hacc]
                  refine ⟨i1, by rw [i2, s2], ?_, ?_⟩
                  · rw [i3, sdeq]
                    simp [Option.toList]
                    omega
                  · calc (↑st.allContent + ↑(acceptedOf ops)
                          : Multiset RequestData)
                        = (↑st1.allContent + {r}) + ↑(acceptedOf ops) := by
                          rw [smul]
                      _ = (↑st1.allContent + ↑(acceptedOf ops)) + {r} := by
                          abel
                      _ = (↑(runOps st1 ops).2
                            + ↑(runOps st1 ops).1.allContent) + {r} := by
                          rw [i4]
                      _ = ↑((some r).toList ++ (runOps st1 ops).2)
                            + ↑(runOps st1 ops).1.allContent := by
                          simp only [Option.toList, ← Multiset.coe_add,
                                     ← Multiset.cons_coe,
                                     ← Multiset.singleton_add,
                                     Multiset.coe_nil, List.append_assoc,
                                     List.cons_append]
                          abel

/-- C2: over any quiescent trace of enqueues and dequeue passes from the
initial state, enqueued_reqs minus dequeued_reqs equals the sum over all
four queue pairs of producer.size + consumer.size (stated additively), the
multiset of requests placed on queues equals the requests returned by
dequeues plus those still on the queues, and when the queues have drained
every distinct enqueued request was returned by exactly one dequeue. -/
theorem nfs_rpc_queue_conservation (ops : List DispatchOp) :
    ((runOps initialReqSt ops).1.enqueuedReqs
        = (runOps initialReqSt ops).1.dequeuedReqs
          + (runOps initialReqSt ops).1.totalSize)
  ∧ ((↑(acceptedOf ops) : Multiset RequestData)
      = ↑(runOps initialReqSt ops).2
        + ↑(runOps initialReqSt ops).1.allContent)
  ∧ ((runOps initialReqSt ops).1.allContent = [] →
     (acceptedOf ops).Nodup →
       ∀ r ∈ acceptedOf ops, (runOps initialReqSt ops).2.count r = 1) := by
  have hwf0 : initialReqSt.wfQ :=
    ⟨⟨rfl, rfl⟩, ⟨rfl, rfl⟩, ⟨rfl, rfl⟩, ⟨rfl, rfl⟩⟩
  obtain ⟨w1, w2, w3, w4⟩ := runOps_conserve ops initialReqSt hwf0
  have hinit : initialReqSt.allContent = [] := rfl
  rw [hinit] at w4
  simp only [Multiset.coe_nil, zero_add] at w4
  refine ⟨?_, w4, ?_⟩
  · have hcard := congrArg Multiset.card w4
    simp only [Multiset.coe_card, Multiset.card_add] at hcard
    rw [w2, w3, totalSize_eq_length _ w1]
    have he0 : initialReqSt.enqueuedReqs = 0 := rfl
    have hd0 : initialReqSt.dequeuedReqs = 0 := rfl
    rw [he0, hd0]
    omega
  · intro hempty hnodup r hmem
    rw [hempty] at w4
    simp only [Multiset.coe_nil, add_zero] at w4
    have hcnt := congrArg (Multiset.count r) w4
    simp only [Multiset.coe_count] at hcnt
    rw [← hcnt]
    exact List.count_eq_one_of_mem hnodup hmem

/-- C2 witness: a concrete trace of two enqueues then two dequeue passes
drains the queues; the MOUNT request is returned exactly once. -/
theorem nfs_rpc_queue_conservation_witness :
    (runOps initialReqSt opsW).2.count (stampReq 0 reqMount) = 1 :=
  (nfs_rpc_queue_conservation opsW).2.2 (by decide) (by decide)
    (stampReq 0 reqMount) (by decide)

end NfsDispatch

namespace NfsDispatch

/-- C5 witness: the amended rendezvous-callback behavior on a concrete
accepted transport. -/
theorem nfs_rpc_tcp_user_data_spec_witness :
    nfs_rpc_tcp_user_data xprt0
      = ({ xprt0 with xp_u1 := some 0 }, xprt0.parentStat,
         [DispatchEffect.allocPrivate]) :=
  (nfs_rpc_tcp_user_data_spec xprt0).1

end NfsDispatch
